import Mathlib

/-!
Influence network: shallow embedding and verified properties

Embedding of the core of the influence-network simulator
(`Core Components/edge.cpp`, `node.cpp`, `influence_network.cpp` and
`Strategic Layer/betrayal_strategy.cpp`).

Modelling conventions

* `double` is modelled by exact rational arithmetic (`ℚ`): every formula of
  the source is kept as written, rounding and the special values of IEEE
  arithmetic are not modelled.
* `int` identifiers are modelled by `Int`.
* `std::map<int, std::shared_ptr<Node>>` is an association list of
  `(key, node)` pairs kept in ascending key order; a shared pointer to a node
  is its key, and every access through a pointer reads or writes the entry
  stored under that key.
* `std::vector` is `List`; `push_back` appends at the end.
* Mutating member functions return the new state.
-/

/-! ## Edge (`edge.h`, `edge.cpp`) -/

/-- The four relationship kinds of `enum class EdgeType`. -/
inductive EdgeType where
  | ALLIANCE
  | SUBORDINATION
  | CONFLICT
  | NEUTRAL
  deriving DecidableEq, Repr

/-- Fields of `class Edge`. -/
structure Edge where
  source_id : Int
  target_id : Int
  type : EdgeType
  weight : ℚ
  trust_level : ℚ
  deriving DecidableEq

/-- Constructor `Edge::Edge`: the trust level starts at `0.8`. -/
def Edge.ctor (source target : Int) (type : EdgeType) (weight : ℚ) : Edge :=
  { source_id := source, target_id := target, type := type,
    weight := weight, trust_level := 0.8 }

/-- Embeds `Edge::modify_trust`: `trust_level = max(0.0, min(1.0, trust_level + delta))`. -/
def Edge.modify_trust (e : Edge) (delta : ℚ) : Edge :=
  { e with trust_level := max 0.0 (min 1.0 (e.trust_level + delta)) }

/-- Embeds `Edge::calculate_influence_flow`. -/
def Edge.calculate_influence_flow (e : Edge) : ℚ :=
  match e.type with
  | EdgeType.ALLIANCE => e.weight * e.trust_level * 0.8
  | EdgeType.SUBORDINATION => e.weight * 1.2
  | EdgeType.CONFLICT => -e.weight * 0.5
  | EdgeType.NEUTRAL => e.weight * 0.3

/-! ## Node (`node.h`, `node.cpp`) -/

/-- Fields of `class Node`. -/
structure Node where
  id : Int
  name : String
  power : ℚ
  loyalty : ℚ
  influence_radius : ℚ
  is_traitor : Bool
  allies : List Int
  subordinates : List Int
  deriving DecidableEq

/-- Constructor `Node::Node`. -/
def Node.ctor (id : Int) (name : String) (initial_power : ℚ) : Node :=
  { id := id, name := name, power := initial_power, loyalty := 1.0,
    influence_radius := initial_power * 0.5, is_traitor := false,
    allies := [], subordinates := [] }

/-- Embeds `Node::modify_power`: `power += delta`. -/
def Node.modify_power (n : Node) (delta : ℚ) : Node :=
  { n with power := n.power + delta }

/-- Embeds `Node::modify_loyalty`: `loyalty += delta`. -/
def Node.modify_loyalty (n : Node) (delta : ℚ) : Node :=
  { n with loyalty := n.loyalty + delta }

/-- Embeds `Node::mark_as_traitor`. -/
def Node.mark_as_traitor (n : Node) : Node :=
  { n with is_traitor := true }

/-- Embeds `Node::add_ally`: append unless already present. -/
def Node.add_ally (n : Node) (node_id : Int) : Node :=
  if node_id ∈ n.allies then n else { n with allies := n.allies ++ [node_id] }

/-- Embeds `Node::add_subordinate`: append unless already present. -/
def Node.add_subordinate (n : Node) (node_id : Int) : Node :=
  if node_id ∈ n.subordinates then n
  else { n with subordinates := n.subordinates ++ [node_id] }

/-- Embeds `Node::calculate_betrayal_gain`. -/
def Node.calculate_betrayal_gain (n : Node) (target_power : ℚ) : ℚ :=
  let base_gain := target_power * 0.6
  let loyalty_penalty := n.loyalty * target_power * 0.3
  base_gain - loyalty_penalty

/-- Embeds `Node::calculate_vulnerability`. -/
def Node.calculate_vulnerability (n : Node) : ℚ :=
  let base_vulnerability := 1.0 / (n.power + 1.0)
  let ally_protection := (n.allies.length : ℚ) * 0.1
  max 0.0 (base_vulnerability - ally_protection)

/-! ## The node map -/

/-- Contents of a `std::map<int, std::shared_ptr<Node>>`, in iteration order. -/
abbrev NodeMap := List (Int × Node)

/-- Embeds `std::map::find`: the entry stored under `id`, if any. -/
def NodeMap.find (m : NodeMap) (id : Int) : Option Node :=
  match m with
  | [] => none
  | (k, n) :: rest => if k = id then some n else NodeMap.find rest id

/-- A write through the shared pointer stored under `id`: the node under that
key is replaced by `f` of it; a map without the key is left as it is. -/
def NodeMap.modify (m : NodeMap) (id : Int) (f : Node → Node) : NodeMap :=
  m.map (fun kn => if kn.1 = id then (kn.1, f kn.2) else kn)

/-- Embeds `nodes[id] = n`: insert in key order, or overwrite the entry under `id`. -/
def NodeMap.assign (m : NodeMap) (id : Int) (n : Node) : NodeMap :=
  match m with
  | [] => [(id, n)]
  | (k, x) :: rest =>
    if id < k then (id, n) :: (k, x) :: rest
    else if id = k then (k, n) :: rest
    else (k, x) :: NodeMap.assign rest id n

/-- Representation invariant of `std::map`: keys strictly ascending (hence
unique). -/
def NodeMap.ordered (m : NodeMap) : Prop :=
  List.Pairwise (fun a b => a.1 < b.1) m

/-! ## InfluenceNetwork (`influence_network.h`, `influence_network.cpp`) -/

/-- Fields of `class InfluenceNetwork`. -/
structure InfluenceNetwork where
  nodes : NodeMap
  edges : List Edge
  next_node_id : Int
  deriving DecidableEq

/-- Constructor `InfluenceNetwork::InfluenceNetwork`. -/
def InfluenceNetwork.ctor : InfluenceNetwork :=
  { nodes := [], edges := [], next_node_id := 0 }

/-- Embeds `InfluenceNetwork::add_node`: returns the new state and the new id. -/
def InfluenceNetwork.add_node (net : InfluenceNetwork) (name : String)
    (initial_power : ℚ) : InfluenceNetwork × Int :=
  let id := net.next_node_id
  ({ net with
      nodes := NodeMap.assign net.nodes id (Node.ctor id name initial_power),
      next_node_id := net.next_node_id + 1 }, id)

/-- Embeds `InfluenceNetwork::get_node`: `none` stands for the null pointer. -/
def InfluenceNetwork.get_node (net : InfluenceNetwork) (id : Int) : Option Node :=
  NodeMap.find net.nodes id

/-- A write through a node pointer obtained from `get_node`. -/
def InfluenceNetwork.modify_node (net : InfluenceNetwork) (id : Int)
    (f : Node → Node) : InfluenceNetwork :=
  { net with nodes := NodeMap.modify net.nodes id f }

/-- Embeds `InfluenceNetwork::add_edge`: the edge is appended first; the relationship
lists are touched only when both endpoints exist. -/
def InfluenceNetwork.add_edge (net : InfluenceNetwork) (source target : Int)
    (type : EdgeType) (weight : ℚ) : InfluenceNetwork :=
  let net1 := { net with edges := net.edges ++ [Edge.ctor source target type weight] }
  match net1.get_node source, net1.get_node target with
  | some _, some _ =>
    match type with
    | EdgeType.ALLIANCE =>
      (net1.modify_node source (fun n => n.add_ally target)).modify_node target
        (fun n => n.add_ally source)
    | EdgeType.SUBORDINATION =>
      net1.modify_node source (fun n => n.add_subordinate target)
    | _ => net1
  | _, _ => net1

/-- Embeds `InfluenceNetwork::remove_edge`: erase every edge with that ordered pair. -/
def InfluenceNetwork.remove_edge (net : InfluenceNetwork) (source target : Int) :
    InfluenceNetwork :=
  let is_match := fun (e : Edge) =>
    decide (e.source_id = source) && decide (e.target_id = target)
  { net with edges := net.edges.filter (fun e => !(is_match e)) }

/-- Embeds `InfluenceNetwork::get_edges_from`. -/
def InfluenceNetwork.get_edges_from (net : InfluenceNetwork) (node_id : Int) :
    List Edge :=
  net.edges.filter (fun e => decide (e.source_id = node_id))

/-- Embeds `InfluenceNetwork::propagate_power_recursive`. The state threaded through the
recursion is the network together with the ids marked in the `visited` map.
The first argument bounds the nesting of calls; the source stops at depth 4,
so five levels are enough. -/
def InfluenceNetwork.propagate_power_recursive :
    Nat → InfluenceNetwork → Int → ℚ → List Int → Nat → InfluenceNetwork × List Int
  | 0, net, _, _, visited, _ => (net, visited)
  | fuel + 1, net, node_id, amount, visited, depth =>
    if depth > 3 ∨ node_id ∈ visited ∨ amount < 0.01 then (net, visited)
    else
      let visited1 := node_id :: visited
      match net.get_node node_id with
      | none => (net, visited1)
      | some _ =>
        let net1 := net.modify_node node_id (fun n => n.modify_power amount)
        (net1.get_edges_from node_id).foldl
          (fun st edge =>
            InfluenceNetwork.propagate_power_recursive fuel st.1 edge.target_id
              (amount * edge.calculate_influence_flow * 0.5) st.2 (depth + 1))
          (net1, visited1)

/-- Embeds `InfluenceNetwork::propagate_influence`. -/
def InfluenceNetwork.propagate_influence (net : InfluenceNetwork) (source_id : Int)
    (amount : ℚ) : InfluenceNetwork :=
  (InfluenceNetwork.propagate_power_recursive 5 net source_id amount [] 0).1

/-! ## BetrayalPlan and BetrayalStrategy (`betrayal_strategy.h`, `betrayal_strategy.cpp`) -/

/-- Fields of `struct BetrayalPlan`. -/
structure BetrayalPlan where
  betrayer_id : Int
  target_id : Int
  expected_gain : ℚ
  success_probability : ℚ
  required_allies : List Int
  total_cost : ℚ
  deriving DecidableEq

/-- Embeds `BetrayalPlan::calculate_roi`. -/
def BetrayalPlan.calculate_roi (p : BetrayalPlan) : ℚ :=
  p.expected_gain / (p.total_cost + 0.1)

/-- Embeds `std::sort(first, last, comp)` of the C++ standard library, which is not
part of the repository: modelled by insertion sort, where an element is placed
before the first element that `comp` does not put before it. Only its contract
(the result is a rearrangement ordered by `comp`) is used in the proofs. -/
def std_sort {α : Type} (comp : α → α → Bool) (l : List α) : List α :=
  l.insertionSort (fun a b => comp b a = false)

/-- The conversion `(size_t)n` of an `int` on a 64-bit target. -/
def size_t_of_int (n : Int) : Nat :=
  (n % (2 ^ 64 : Int)).toNat

/-- Embeds `BetrayalStrategy::calculate_betrayal_success_probability`. -/
def BetrayalStrategy.calculate_betrayal_success_probability (net : InfluenceNetwork)
    (betrayer target : Int) : ℚ :=
  match net.get_node betrayer, net.get_node target with
  | some betrayer_node, some target_node =>
    let power_ratio := betrayer_node.power / (target_node.power + 1.0)
    let ally_advantage := (betrayer_node.allies.length : ℚ) * 0.1
    let target_vulnerability := target_node.calculate_vulnerability
    let probability := power_ratio * 0.5 + ally_advantage + target_vulnerability * 0.3
    min 0.95 (max 0.05 probability)
  | _, _ => 0.0

/-- The loop of `identify_necessary_allies` over the betrayer's ally list, with
its `break` once two allies have been collected. -/
def BetrayalStrategy.collect_allies (net : InfluenceNetwork) :
    List Int → List Int → List Int
  | [], necessary_allies => necessary_allies
  | ally_id :: rest, necessary_allies =>
    match net.get_node ally_id with
    | some ally =>
      if ally.power > 5.0 then
        let necessary_allies1 := necessary_allies ++ [ally_id]
        if necessary_allies1.length ≥ 2 then necessary_allies1
        else BetrayalStrategy.collect_allies net rest necessary_allies1
      else BetrayalStrategy.collect_allies net rest necessary_allies
    | none => BetrayalStrategy.collect_allies net rest necessary_allies

/-- Embeds `BetrayalStrategy::identify_necessary_allies`. -/
def BetrayalStrategy.identify_necessary_allies (net : InfluenceNetwork)
    (betrayer target : Int) : List Int :=
  match net.get_node betrayer, net.get_node target with
  | some betrayer_node, some target_node =>
    if target_node.power > betrayer_node.power * 1.5 then
      BetrayalStrategy.collect_allies net betrayer_node.allies []
    else []
  | _, _ => []

/-- Embeds `BetrayalStrategy::calculate_execution_cost`. -/
def BetrayalStrategy.calculate_execution_cost (plan : BetrayalPlan) : ℚ :=
  let base_cost := 2.0
  let ally_cost := (plan.required_allies.length : ℚ) * 1.5
  let risk_cost := (1.0 - plan.success_probability) * 5.0
  base_cost + ally_cost + risk_cost

/-- Embeds `BetrayalStrategy::analyze_betrayal_opportunity`. The local `BetrayalPlan
plan;` is default-initialised, so `total_cost` holds an indeterminate value
until it is assigned; `uninit_cost` stands for that value, which the early
return hands back unassigned. -/
def BetrayalStrategy.analyze_betrayal_opportunity (net : InfluenceNetwork)
    (betrayer target : Int) (uninit_cost : ℚ) : BetrayalPlan :=
  let plan : BetrayalPlan :=
    { betrayer_id := betrayer, target_id := target, expected_gain := 0,
      success_probability := 0, required_allies := [], total_cost := uninit_cost }
  match net.get_node betrayer, net.get_node target with
  | some betrayer_node, some target_node =>
    let plan1 := { plan with
      expected_gain := betrayer_node.calculate_betrayal_gain target_node.power }
    let plan2 := { plan1 with
      success_probability :=
        BetrayalStrategy.calculate_betrayal_success_probability net betrayer target }
    let plan3 := { plan2 with
      required_allies := BetrayalStrategy.identify_necessary_allies net betrayer target }
    { plan3 with total_cost := BetrayalStrategy.calculate_execution_cost plan3 }
  | _, _ => plan

/-- The loop of `find_optimal_betrayals` over all nodes in key order. -/
def BetrayalStrategy.candidate_plans (net : InfluenceNetwork) (betrayer_id : Int)
    (uninit_cost : ℚ) : List BetrayalPlan :=
  net.nodes.foldl
    (fun plans pair =>
      if pair.1 = betrayer_id then plans
      else
        let plan := BetrayalStrategy.analyze_betrayal_opportunity net betrayer_id
          pair.1 uninit_cost
        if plan.expected_gain > 0 ∧ plan.success_probability > 0.3 then plans ++ [plan]
        else plans)
    []

/-- Embeds `BetrayalStrategy::find_optimal_betrayals`. -/
def BetrayalStrategy.find_optimal_betrayals (net : InfluenceNetwork)
    (betrayer_id : Int) (top_n : Int) (uninit_cost : ℚ) : List BetrayalPlan :=
  match net.get_node betrayer_id with
  | none => []
  | some _ =>
    let plans := BetrayalStrategy.candidate_plans net betrayer_id uninit_cost
    let sorted := std_sort (fun a b => decide (a.calculate_roi > b.calculate_roi)) plans
    if sorted.length > size_t_of_int top_n then sorted.take (size_t_of_int top_n)
    else sorted

/-- The loop of `execute_betrayal` over `plan.required_allies`. -/
def BetrayalStrategy.penalize_allies (net : InfluenceNetwork)
    (required_allies : List Int) : InfluenceNetwork :=
  required_allies.foldl
    (fun s ally_id =>
      match s.get_node ally_id with
      | some _ => s.modify_node ally_id (fun n => n.modify_loyalty (-0.2))
      | none => s)
    net

/-- Lines 56 to 77 of `BetrayalStrategy::execute_betrayal`, everything before
the closing `propagate_influence`: the state reached there together with
`power_stolen`, or `none` when the guard returns early. `target->get_power()`
is read after `betrayer->mark_as_traitor()`, which leaves every power as it
was, also when both pointers name the same node. -/
def BetrayalStrategy.execute_betrayal_before_propagate (net : InfluenceNetwork)
    (plan : BetrayalPlan) : Option (InfluenceNetwork × ℚ) :=
  match net.get_node plan.betrayer_id, net.get_node plan.target_id with
  | some _, some target =>
    let net1 := net.modify_node plan.betrayer_id Node.mark_as_traitor
    let power_stolen := target.power * 0.6
    let net2 := net1.modify_node plan.target_id (fun n => n.modify_power (-power_stolen))
    let net3 := net2.modify_node plan.betrayer_id (fun n => n.modify_power power_stolen)
    let net4 := net3.modify_node plan.target_id (fun n => n.modify_loyalty (-0.4))
    let net5 := BetrayalStrategy.penalize_allies net4 plan.required_allies
    let net6 := net5.remove_edge plan.betrayer_id plan.target_id
    let net7 := net6.add_edge plan.betrayer_id plan.target_id EdgeType.CONFLICT 1.0
    some (net7, power_stolen)
  | _, _ => none

/-- Embeds `BetrayalStrategy::execute_betrayal`. -/
def BetrayalStrategy.execute_betrayal (net : InfluenceNetwork) (plan : BetrayalPlan) :
    InfluenceNetwork :=
  match BetrayalStrategy.execute_betrayal_before_propagate net plan with
  | none => net
  | some (net7, power_stolen) =>
    net7.propagate_influence plan.betrayer_id (power_stolen * 0.3)

/-! ## Concrete networks used in the examples -/

/-- Two isolated agents built through the public interface: `A` (id 0, power 5)
and `B` (id 1, power 50), no edges. -/
def two_isolated_agents : InfluenceNetwork :=
  ((InfluenceNetwork.ctor.add_node "A" 5).1.add_node "B" 50).1

/-- The network set up by `main`: six agents created by `create_agent` and
seven relationships created by `create_relationship`, each of weight 1.0. -/
def main_network : InfluenceNetwork :=
  let net0 := InfluenceNetwork.ctor
  let net1 := (net0.add_node "Alpha" 15.0).1
  let net2 := (net1.add_node "Beta" 12.0).1
  let net3 := (net2.add_node "Gamma" 10.0).1
  let net4 := (net3.add_node "Delta" 8.0).1
  let net5 := (net4.add_node "Epsilon" 7.0).1
  let net6 := (net5.add_node "Zeta" 6.0).1
  let net7 := net6.add_edge 0 1 EdgeType.ALLIANCE 1.0
  let net8 := net7.add_edge 0 2 EdgeType.SUBORDINATION 1.0
  let net9 := net8.add_edge 1 3 EdgeType.ALLIANCE 1.0
  let net10 := net9.add_edge 2 4 EdgeType.SUBORDINATION 1.0
  let net11 := net10.add_edge 3 5 EdgeType.ALLIANCE 1.0
  let net12 := net11.add_edge 4 5 EdgeType.NEUTRAL 1.0
  net12.add_edge 1 2 EdgeType.CONFLICT 1.0

/-- Agent `Alpha` (id 0) as it stands in `main_network`. -/
def main_alpha : Node :=
  { id := 0, name := "Alpha", power := 15, loyalty := 1, influence_radius := 7.5,
    is_traitor := false, allies := [1], subordinates := [2] }

/-- Agent `Delta` (id 3) as it stands in `main_network`. -/
def main_delta : Node :=
  { id := 3, name := "Delta", power := 8, loyalty := 1, influence_radius := 4,
    is_traitor := false, allies := [1, 5], subordinates := [] }

/-- Agent `Beta` (id 1) as it stands in `main_network`. -/
def main_beta : Node :=
  { id := 1, name := "Beta", power := 12, loyalty := 1, influence_radius := 6,
    is_traitor := false, allies := [0, 3], subordinates := [] }

/-- Agent `Zeta` (id 5) as it stands in `main_network`. -/
def main_zeta : Node :=
  { id := 5, name := "Zeta", power := 6, loyalty := 1, influence_radius := 3,
    is_traitor := false, allies := [3], subordinates := [] }

/-- The plan of `Delta` (id 3) against `Alpha` (id 0) in `main_network`. -/
def delta_betrays_alpha : BetrayalPlan :=
  BetrayalStrategy.analyze_betrayal_opportunity main_network 3 0 0

/-- A plan of `Delta` (id 3) against id 9, which names no node of `main_network`. -/
def delta_betrays_nobody : BetrayalPlan :=
  { betrayer_id := 3, target_id := 9, expected_gain := 1, success_probability := 0.5,
    required_allies := [1], total_cost := 3 }

/-! ## Notions used to state the properties -/

/-- Directed reachability along the edge list: `reachable_within edges k s t`
holds when some path of at most `k` edges leads from `s` to `t`. -/
def reachable_within (edges : List Edge) : Nat → Int → Int → Bool
  | 0, s, t => decide (s = t)
  | k + 1, s, t =>
    decide (s = t) ||
      edges.any (fun e => decide (e.source_id = s) && reachable_within edges k e.target_id t)

/-- Representation invariant of the relationship lists, which are only ever
extended through `add_ally` and `add_subordinate`: no list holds an id twice. -/
def InfluenceNetwork.lists_nodup (net : InfluenceNetwork) : Prop :=
  ∀ kn ∈ net.nodes, kn.2.allies.Nodup ∧ kn.2.subordinates.Nodup

/-! ## Further concrete networks -/

/-- A node of power 10 with exactly one ally. -/
def node_power_10_one_ally : Node :=
  (Node.ctor 0 "A" 10).add_ally 1

/-- A betrayer of power 20 (id 0, loyalty 1.0 as constructed) and a target of
power 10 (id 1). -/
def gain_example : InfluenceNetwork :=
  ((InfluenceNetwork.ctor.add_node "betrayer" 20).1.add_node "target" 10).1

/-- Two agents of power 10 joined by one `CONFLICT` edge `0 → 1` of weight 1. -/
def conflict_pair : InfluenceNetwork :=
  (((InfluenceNetwork.ctor.add_node "A" 10).1.add_node "B" 10).1).add_edge 0 1
    EdgeType.CONFLICT 1.0

/-- A single agent (id 0, power 10) and no edge. -/
def single_agent : InfluenceNetwork :=
  (InfluenceNetwork.ctor.add_node "A" 10).1

/-- Agents `A`, `B`, `C` with the `SUBORDINATION` edges `A → B`, `B → C`, `A → C`
of weight 1, inserted in that order. -/
def triangle_network : InfluenceNetwork :=
  ((((((InfluenceNetwork.ctor.add_node "A" 10).1.add_node "B" 10).1.add_node "C" 10).1).add_edge
    0 1 EdgeType.SUBORDINATION 1.0).add_edge 1 2 EdgeType.SUBORDINATION 1.0).add_edge
    0 2 EdgeType.SUBORDINATION 1.0

/-! ## Network analytics (`influence_network.cpp`, `betrayal_strategy.cpp`) -/

/-- Embeds `InfluenceNetwork::calculate_total_network_power`. -/
def InfluenceNetwork.calculate_total_network_power (net : InfluenceNetwork) : ℚ :=
  net.nodes.foldl (fun total pair => total + pair.2.power) 0.0

/-- Embeds `InfluenceNetwork::calculate_centrality`. -/
def InfluenceNetwork.calculate_centrality (net : InfluenceNetwork) (node_id : Int) : ℚ :=
  match NodeMap.find net.nodes node_id with
  | none => 0.0
  | some node =>
    let counts : Int × Int := net.edges.foldl
      (fun c edge =>
        let c1 := if edge.target_id = node_id then (c.1 + 1, c.2) else c
        if edge.source_id = node_id then (c1.1, c1.2 + 1) else c1)
      (0, 0)
    ((counts.1 + counts.2 : Int) : ℚ) * node.power

/-- The loop of `find_vulnerable_targets` over all nodes in key order. -/
def InfluenceNetwork.vulnerabilities (net : InfluenceNetwork) : List (Int × ℚ) :=
  net.nodes.foldl
    (fun vulnerabilities pair =>
      let vuln := pair.2.calculate_vulnerability
      if vuln > 0.3 then vulnerabilities ++ [(pair.1, vuln)] else vulnerabilities)
    []

/-- Embeds `InfluenceNetwork::find_vulnerable_targets`. -/
def InfluenceNetwork.find_vulnerable_targets (net : InfluenceNetwork) : List Int :=
  (std_sort (fun a b => decide (a.2 > b.2)) net.vulnerabilities).map Prod.fst

/-- Embeds `BetrayalStrategy::calculate_network_control`. -/
def BetrayalStrategy.calculate_network_control (net : InfluenceNetwork) (node_id : Int) : ℚ :=
  match net.get_node node_id with
  | none => 0.0
  | some node =>
    let total_power := net.calculate_total_network_power
    let node_power := node.power
    let centrality := net.calculate_centrality node_id
    (node_power / total_power) * 0.6 + (centrality / 100.0) * 0.4

/-! ## Sequences of calls on a network -/

/-- One call of a mutating member function of the public interface. -/
inductive NetworkCall where
  | add_node (name : String) (initial_power : ℚ)
  | add_edge (source target : Int) (type : EdgeType) (weight : ℚ)
  | remove_edge (source target : Int)
  | propagate_influence (source_id : Int) (amount : ℚ)
  | execute_betrayal (plan : BetrayalPlan)

/-- The state after one call. -/
def InfluenceNetwork.call (net : InfluenceNetwork) : NetworkCall → InfluenceNetwork
  | NetworkCall.add_node name initial_power => (net.add_node name initial_power).1
  | NetworkCall.add_edge source target type weight => net.add_edge source target type weight
  | NetworkCall.remove_edge source target => net.remove_edge source target
  | NetworkCall.propagate_influence source_id amount =>
    net.propagate_influence source_id amount
  | NetworkCall.execute_betrayal plan => BetrayalStrategy.execute_betrayal net plan

/-- The state reached from the empty network by a sequence of calls. -/
def InfluenceNetwork.after_calls (calls : List NetworkCall) : InfluenceNetwork :=
  calls.foldl InfluenceNetwork.call InfluenceNetwork.ctor

/-- Whether a call is an `add_node`. -/
def NetworkCall.is_add_node : NetworkCall → Bool
  | NetworkCall.add_node _ _ => true
  | _ => false

/-- Every key of the node map is an id handed out so far: the id counter is not
negative and every key lies between 0 and the counter. -/
def InfluenceNetwork.keys_below_next (net : InfluenceNetwork) : Prop :=
  0 ≤ net.next_node_id ∧ ∀ kn ∈ net.nodes, 0 ≤ kn.1 ∧ kn.1 < net.next_node_id

/-- Ally membership is mutual: whoever is in a node's ally list exists and has
that node in its own ally list. -/
def InfluenceNetwork.allies_symmetric (net : InfluenceNetwork) : Prop :=
  ∀ (a b : Int) (na : Node), net.get_node a = some na → b ∈ na.allies →
    ∃ nb : Node, net.get_node b = some nb ∧ a ∈ nb.allies

/-- The invariants of a network built through the public interface: ascending
keys, keys below the id counter, duplicate-free relationship lists and mutual
ally membership. -/
def InfluenceNetwork.well_formed (net : InfluenceNetwork) : Prop :=
  NodeMap.ordered net.nodes ∧ net.keys_below_next ∧ net.lists_nodup ∧ net.allies_symmetric

/-! ## Concrete networks for the later properties -/

/-- Agents `A` (id 0, power 4) and `B` (id 1, power 10) joined by an `ALLIANCE`
edge `0 → 1` of weight 1. -/
def allied_pair : InfluenceNetwork :=
  (((InfluenceNetwork.ctor.add_node "A" 4).1.add_node "B" 10).1).add_edge 0 1
    EdgeType.ALLIANCE 1.0

/-- The plan of `A` against its ally `B` in `allied_pair`. -/
def a_betrays_ally : BetrayalPlan :=
  BetrayalStrategy.analyze_betrayal_opportunity allied_pair 0 1 0

/-- The agents and edges of `triangle_network` with the edge `A → C` inserted
first: `A → C`, `A → B`, `B → C`. -/
def triangle_network_direct_first : InfluenceNetwork :=
  ((((((InfluenceNetwork.ctor.add_node "A" 10).1.add_node "B" 10).1.add_node "C" 10).1).add_edge
    0 2 EdgeType.SUBORDINATION 1.0).add_edge 0 1 EdgeType.SUBORDINATION 1.0).add_edge
    1 2 EdgeType.SUBORDINATION 1.0

/-- A single agent created with power -1. -/
def agent_power_minus_one : InfluenceNetwork :=
  (InfluenceNetwork.ctor.add_node "A" (-1)).1

/-- A single agent created with power 0. -/
def agent_power_zero : InfluenceNetwork :=
  (InfluenceNetwork.ctor.add_node "A" 0).1

/-- Three weak agents: `A` (power 1), `B` (power 0.5) and `C` (power 2, allied
with nobody), and a strong one `D` (power 9). -/
def weak_agents : InfluenceNetwork :=
  ((((InfluenceNetwork.ctor.add_node "A" 1).1.add_node "B" 0.5).1.add_node "C" 2).1.add_node
    "D" 9).1

/-- The calls made by `main` up to the start of the simulation, followed by a
propagation, the removal of an edge and the betrayal of `Alpha` by `Delta`. -/
def main_calls : List NetworkCall :=
  [NetworkCall.add_node "Alpha" 15.0, NetworkCall.add_node "Beta" 12.0,
   NetworkCall.add_node "Gamma" 10.0, NetworkCall.add_node "Delta" 8.0,
   NetworkCall.add_node "Epsilon" 7.0, NetworkCall.add_node "Zeta" 6.0,
   NetworkCall.add_edge 0 1 EdgeType.ALLIANCE 1.0,
   NetworkCall.add_edge 0 2 EdgeType.SUBORDINATION 1.0,
   NetworkCall.add_edge 1 3 EdgeType.ALLIANCE 1.0,
   NetworkCall.add_edge 2 4 EdgeType.SUBORDINATION 1.0,
   NetworkCall.add_edge 3 5 EdgeType.ALLIANCE 1.0,
   NetworkCall.add_edge 4 5 EdgeType.NEUTRAL 1.0,
   NetworkCall.add_edge 1 2 EdgeType.CONFLICT 1.0,
   NetworkCall.propagate_influence 0 1.0,
   NetworkCall.remove_edge 4 5,
   NetworkCall.execute_betrayal delta_betrays_alpha]

/-! ## Basic facts about the node map -/

theorem NodeMap.find_nil (id : Int) : NodeMap.find [] id = none := rfl

theorem NodeMap.find_cons (k : Int) (n : Node) (rest : NodeMap) (id : Int) :
    NodeMap.find ((k, n) :: rest) id = if k = id then some n else NodeMap.find rest id := rfl

theorem NodeMap.modify_cons (k : Int) (n : Node) (rest : NodeMap) (id : Int)
    (f : Node → Node) :
    NodeMap.modify ((k, n) :: rest) id f =
      (if k = id then (k, f n) else (k, n)) :: NodeMap.modify rest id f := rfl

theorem NodeMap.find_modify (m : NodeMap) (id : Int) (f : Node → Node) (k : Int) :
    NodeMap.find (NodeMap.modify m id f) k =
      if k = id then (NodeMap.find m id).map f else NodeMap.find m k := by
  induction m with
  | nil => simp [NodeMap.modify, NodeMap.find_nil]
  | cons kn rest ih =>
    obtain ⟨k0, n0⟩ := kn
    rw [NodeMap.modify_cons]
    by_cases h0 : k0 = id <;> by_cases hk : k = id <;> by_cases hk0 : k0 = k <;>
      simp_all [NodeMap.find_cons]

theorem InfluenceNetwork.get_node_modify_node (net : InfluenceNetwork) (id : Int)
    (f : Node → Node) (k : Int) :
    (net.modify_node id f).get_node k =
      if k = id then (net.get_node id).map f else net.get_node k := by
  simp [InfluenceNetwork.get_node, InfluenceNetwork.modify_node, NodeMap.find_modify]

theorem InfluenceNetwork.edges_modify_node (net : InfluenceNetwork) (id : Int)
    (f : Node → Node) : (net.modify_node id f).edges = net.edges := rfl

theorem InfluenceNetwork.next_node_id_modify_node (net : InfluenceNetwork) (id : Int)
    (f : Node → Node) : (net.modify_node id f).next_node_id = net.next_node_id := rfl

/-- A write that keeps the observed field `g` keeps `g` of every node. -/
theorem InfluenceNetwork.get_node_modify_node_frame {β : Type} (g : Node → β)
    (net : InfluenceNetwork) (id : Int) (f : Node → Node)
    (hf : ∀ n, g (f n) = g n) (k : Int) :
    ((net.modify_node id f).get_node k).map g = (net.get_node k).map g := by
  rw [InfluenceNetwork.get_node_modify_node]
  by_cases hk : k = id
  · subst hk
    cases h : net.get_node k <;> simp [hf]
  · simp [hk]

/-! ## The key order of the node map is kept by every write -/

theorem NodeMap.ordered_nil : NodeMap.ordered [] := List.Pairwise.nil

theorem NodeMap.mem_assign (m : NodeMap) (id : Int) (n : Node) (x : Int × Node)
    (hx : x ∈ NodeMap.assign m id n) : x = (id, n) ∨ x ∈ m := by
  induction m with
  | nil =>
    simp only [NodeMap.assign, List.mem_singleton] at hx
    exact Or.inl hx
  | cons kx rest ih =>
    obtain ⟨k, y⟩ := kx
    rw [NodeMap.assign] at hx
    split_ifs at hx with h1 h2
    · rcases List.mem_cons.mp hx with h | h
      · exact Or.inl h
      · exact Or.inr h
    · rcases List.mem_cons.mp hx with h | h
      · exact Or.inl (by rw [h, h2])
      · exact Or.inr (List.mem_cons_of_mem _ h)
    · rcases List.mem_cons.mp hx with h | h
      · exact Or.inr (by rw [h]; exact List.mem_cons_self _ _)
      · rcases ih h with h' | h'
        · exact Or.inl h'
        · exact Or.inr (List.mem_cons_of_mem _ h')

theorem NodeMap.ordered_assign (m : NodeMap) (id : Int) (n : Node)
    (h : NodeMap.ordered m) : NodeMap.ordered (NodeMap.assign m id n) := by
  unfold NodeMap.ordered at h ⊢
  induction m with
  | nil => simp [NodeMap.assign]
  | cons kx rest ih =>
    obtain ⟨k, y⟩ := kx
    rw [List.pairwise_cons] at h
    rw [NodeMap.assign]
    split_ifs with h1 h2
    · rw [List.pairwise_cons]
      refine ⟨?_, List.pairwise_cons.mpr h⟩
      intro x hx
      rcases List.mem_cons.mp hx with hx | hx
      · rw [hx]; exact h1
      · exact lt_trans h1 (h.1 x hx)
    · rw [List.pairwise_cons]
      exact ⟨h.1, h.2⟩
    · rw [List.pairwise_cons]
      refine ⟨?_, ih h.2⟩
      intro x hx
      rcases NodeMap.mem_assign rest id n x hx with hx | hx
      · rw [hx]
        show k < id
        omega
      · exact h.1 x hx

theorem NodeMap.map_fst_modify (m : NodeMap) (id : Int) (f : Node → Node) :
    (NodeMap.modify m id f).map Prod.fst = m.map Prod.fst := by
  unfold NodeMap.modify
  rw [List.map_map]
  apply List.map_congr_left
  intro kn _
  simp only [Function.comp]
  split_ifs <;> rfl

theorem NodeMap.ordered_modify (m : NodeMap) (id : Int) (f : Node → Node)
    (h : NodeMap.ordered m) : NodeMap.ordered (NodeMap.modify m id f) := by
  unfold NodeMap.ordered at h ⊢
  have h1 : List.Pairwise (fun a b : Int => a < b) ((NodeMap.modify m id f).map Prod.fst) := by
    rw [NodeMap.map_fst_modify]
    exact List.pairwise_map.mpr h
  exact List.pairwise_map.mp h1

/-! ## Frame lemmas for the mutating operations -/

theorem InfluenceNetwork.get_node_remove_edge (net : InfluenceNetwork) (s t k : Int) :
    (net.remove_edge s t).get_node k = net.get_node k := rfl

theorem InfluenceNetwork.nodes_remove_edge (net : InfluenceNetwork) (s t : Int) :
    (net.remove_edge s t).nodes = net.nodes := rfl

theorem InfluenceNetwork.edges_remove_edge (net : InfluenceNetwork) (s t : Int) :
    (net.remove_edge s t).edges =
      net.edges.filter (fun e => !(decide (e.source_id = s) && decide (e.target_id = t))) := rfl

theorem InfluenceNetwork.add_edge_conflict (net : InfluenceNetwork) (s t : Int) (w : ℚ) :
    net.add_edge s t EdgeType.CONFLICT w =
      { net with edges := net.edges ++ [Edge.ctor s t EdgeType.CONFLICT w] } := by
  unfold InfluenceNetwork.add_edge
  simp only
  split <;> rfl

/-- Any property of the network kept by every power write is kept by the whole
recursive propagation, whatever the bound on the nesting. -/
theorem InfluenceNetwork.propagate_power_recursive_keeps (Inv : InfluenceNetwork → Prop)
    (hstep : ∀ s id a, Inv s → Inv (s.modify_node id (fun n => n.modify_power a))) :
    ∀ (fuel : Nat) (net : InfluenceNetwork) (node_id : Int) (amount : ℚ)
      (visited : List Int) (depth : Nat), Inv net →
      Inv (InfluenceNetwork.propagate_power_recursive fuel net node_id amount visited depth).1 := by
  intro fuel
  induction fuel with
  | zero => intro net node_id amount visited depth h; exact h
  | succ fuel ih =>
    intro net node_id amount visited depth h
    rw [InfluenceNetwork.propagate_power_recursive]
    split_ifs with hg
    · exact h
    · cases hn : net.get_node node_id with
      | none => exact h
      | some nd =>
        simp only
        have key : ∀ (l : List Edge) (st : InfluenceNetwork × List Int), Inv st.1 →
            Inv (l.foldl (fun st edge =>
              InfluenceNetwork.propagate_power_recursive fuel st.1 edge.target_id
                (amount * edge.calculate_influence_flow * 0.5) st.2 (depth + 1)) st).1 := by
          intro l
          induction l with
          | nil => intro st hst; exact hst
          | cons e rest ihl =>
            intro st hst
            rw [List.foldl_cons]
            exact ihl _ (ih _ _ _ _ _ hst)
        exact key _ _ (hstep _ _ _ h)

theorem InfluenceNetwork.propagate_influence_keeps (Inv : InfluenceNetwork → Prop)
    (hstep : ∀ s id a, Inv s → Inv (s.modify_node id (fun n => n.modify_power a)))
    (net : InfluenceNetwork) (source_id : Int) (amount : ℚ) (h : Inv net) :
    Inv (net.propagate_influence source_id amount) :=
  InfluenceNetwork.propagate_power_recursive_keeps Inv hstep 5 net source_id amount [] 0 h

theorem InfluenceNetwork.edges_propagate_influence (net : InfluenceNetwork)
    (source_id : Int) (amount : ℚ) :
    (net.propagate_influence source_id amount).edges = net.edges :=
  InfluenceNetwork.propagate_influence_keeps (fun s => s.edges = net.edges)
    (fun _ _ _ h => h) net source_id amount rfl

/-- One more level of nesting changes nothing once the bound covers the depths
up to 4, where the source returns at once. -/
theorem InfluenceNetwork.propagate_power_recursive_fuel_succ :
    ∀ (fuel : Nat) (net : InfluenceNetwork) (node_id : Int) (amount : ℚ)
      (visited : List Int) (depth : Nat), 5 ≤ depth + fuel →
      InfluenceNetwork.propagate_power_recursive (fuel + 1) net node_id amount visited depth =
        InfluenceNetwork.propagate_power_recursive fuel net node_id amount visited depth := by
  intro fuel
  induction fuel with
  | zero =>
    intro net node_id amount visited depth h
    have hd : depth > 3 := by omega
    simp [InfluenceNetwork.propagate_power_recursive, hd]
  | succ fuel ih =>
    intro net node_id amount visited depth h
    rw [InfluenceNetwork.propagate_power_recursive]
    conv_rhs => rw [InfluenceNetwork.propagate_power_recursive]
    have hfun : (fun (st : InfluenceNetwork × List Int) (edge : Edge) =>
          InfluenceNetwork.propagate_power_recursive (fuel + 1) st.1 edge.target_id
            (amount * edge.calculate_influence_flow * 0.5) st.2 (depth + 1)) =
        (fun (st : InfluenceNetwork × List Int) (edge : Edge) =>
          InfluenceNetwork.propagate_power_recursive fuel st.1 edge.target_id
            (amount * edge.calculate_influence_flow * 0.5) st.2 (depth + 1)) := by
      funext st edge
      exact ih _ _ _ _ _ (by omega)
    rw [hfun]

/-- The bound 5 used by `propagate_influence` is enough: any larger bound gives
the same final state. -/
theorem InfluenceNetwork.propagate_influence_fuel (net : InfluenceNetwork)
    (source_id : Int) (amount : ℚ) (extra : Nat) :
    (InfluenceNetwork.propagate_power_recursive (5 + extra) net source_id amount [] 0).1 =
      net.propagate_influence source_id amount := by
  induction extra with
  | zero => rfl
  | succ extra ih =>
    rw [← ih]
    exact congrArg Prod.fst
      (InfluenceNetwork.propagate_power_recursive_fuel_succ (5 + extra) net source_id
        amount [] 0 (by omega))

/-- Propagation only writes `power`: any field left alone by `modify_power` is
the same for every node afterwards. -/
theorem InfluenceNetwork.get_node_propagate_influence_frame {β : Type} (g : Node → β)
    (hg : ∀ n a, g (Node.modify_power n a) = g n)
    (net : InfluenceNetwork) (source_id : Int) (amount : ℚ) (k : Int) :
    ((net.propagate_influence source_id amount).get_node k).map g =
      (net.get_node k).map g :=
  InfluenceNetwork.propagate_influence_keeps
    (fun s => (s.get_node k).map g = (net.get_node k).map g)
    (fun s id a h =>
      (InfluenceNetwork.get_node_modify_node_frame g s id _ (fun n => hg n a) k).trans h)
    net source_id amount rfl

/-- Any property kept by every loyalty write is kept by the loop over the
required allies. -/
theorem BetrayalStrategy.penalize_allies_keeps (Inv : InfluenceNetwork → Prop)
    (hstep : ∀ s id, Inv s → Inv (s.modify_node id (fun n => n.modify_loyalty (-0.2)))) :
    ∀ (l : List Int) (net : InfluenceNetwork), Inv net →
      Inv (BetrayalStrategy.penalize_allies net l) := by
  intro l
  induction l with
  | nil => intro net h; exact h
  | cons a rest ih =>
    intro net h
    unfold BetrayalStrategy.penalize_allies
    rw [List.foldl_cons]
    apply ih
    cases hn : net.get_node a with
    | none => exact h
    | some nd => exact hstep _ _ h

/-! ## execute_betrayal -/

/-- With both endpoints present the guard of `execute_betrayal` is passed and the
state before the closing propagation is the chain of writes of lines 61 to 77. -/
theorem BetrayalStrategy.execute_betrayal_before_propagate_some (net : InfluenceNetwork)
    (plan : BetrayalPlan) (b t : Node)
    (hb : net.get_node plan.betrayer_id = some b)
    (ht : net.get_node plan.target_id = some t) :
    BetrayalStrategy.execute_betrayal_before_propagate net plan =
      some (((BetrayalStrategy.penalize_allies
        ((((net.modify_node plan.betrayer_id Node.mark_as_traitor).modify_node
            plan.target_id (fun n => n.modify_power (-(t.power * 0.6)))).modify_node
            plan.betrayer_id (fun n => n.modify_power (t.power * 0.6))).modify_node
            plan.target_id (fun n => n.modify_loyalty (-0.4)))
        plan.required_allies).remove_edge plan.betrayer_id plan.target_id).add_edge
          plan.betrayer_id plan.target_id EdgeType.CONFLICT 1.0, t.power * 0.6) := by
  unfold BetrayalStrategy.execute_betrayal_before_propagate
  rw [hb, ht]

theorem BetrayalStrategy.execute_betrayal_before_propagate_none (net : InfluenceNetwork)
    (plan : BetrayalPlan)
    (h : net.get_node plan.betrayer_id = none ∨ net.get_node plan.target_id = none) :
    BetrayalStrategy.execute_betrayal_before_propagate net plan = none := by
  unfold BetrayalStrategy.execute_betrayal_before_propagate
  rcases h with h | h
  · rw [h]
  · rw [h]
    cases net.get_node plan.betrayer_id <;> rfl

theorem InfluenceNetwork.get_node_add_edge_conflict (net : InfluenceNetwork)
    (s t : Int) (w : ℚ) (k : Int) :
    (net.add_edge s t EdgeType.CONFLICT w).get_node k = net.get_node k := by
  rw [InfluenceNetwork.add_edge_conflict]
  rfl

theorem InfluenceNetwork.edges_add_edge_conflict (net : InfluenceNetwork)
    (s t : Int) (w : ℚ) :
    (net.add_edge s t EdgeType.CONFLICT w).edges =
      net.edges ++ [Edge.ctor s t EdgeType.CONFLICT w] := by
  rw [InfluenceNetwork.add_edge_conflict]

/-- The loop over the required allies only writes `loyalty`. -/
theorem BetrayalStrategy.get_node_penalize_allies_frame {β : Type} (g : Node → β)
    (hg : ∀ n d, g (Node.modify_loyalty n d) = g n)
    (net : InfluenceNetwork) (l : List Int) (k : Int) :
    ((BetrayalStrategy.penalize_allies net l).get_node k).map g = (net.get_node k).map g :=
  BetrayalStrategy.penalize_allies_keeps
    (fun s => (s.get_node k).map g = (net.get_node k).map g)
    (fun s id h =>
      (InfluenceNetwork.get_node_modify_node_frame g s id _ (fun n => hg n _) k).trans h)
    l net rfl

theorem BetrayalStrategy.edges_penalize_allies (net : InfluenceNetwork) (l : List Int) :
    (BetrayalStrategy.penalize_allies net l).edges = net.edges :=
  BetrayalStrategy.penalize_allies_keeps (fun s => s.edges = net.edges)
    (fun _ _ h => h) l net rfl

/-- C1. When the betrayer and the target are two distinct existing nodes and the
target holds power `P`, the state of `execute_betrayal` just before its closing
`propagate_influence` call has the betrayer at its old power plus `0.6 * P`, the
target at its old power minus `0.6 * P` and every other node at its old power;
`execute_betrayal` is the propagation of `0.6 * P * 0.3` from that state. -/
theorem execute_betrayal_power_transfer (net : InfluenceNetwork) (plan : BetrayalPlan)
    (b t : Node)
    (hb : net.get_node plan.betrayer_id = some b)
    (ht : net.get_node plan.target_id = some t)
    (hne : plan.betrayer_id ≠ plan.target_id) :
    ∃ mid : InfluenceNetwork,
      BetrayalStrategy.execute_betrayal_before_propagate net plan
        = some (mid, t.power * 0.6) ∧
      BetrayalStrategy.execute_betrayal net plan
        = mid.propagate_influence plan.betrayer_id (t.power * 0.6 * 0.3) ∧
      (mid.get_node plan.betrayer_id).map Node.power = some (b.power + 0.6 * t.power) ∧
      (mid.get_node plan.target_id).map Node.power = some (t.power - 0.6 * t.power) ∧
      ∀ id, id ≠ plan.betrayer_id → id ≠ plan.target_id →
        (mid.get_node id).map Node.power = (net.get_node id).map Node.power := by
  have hsome := BetrayalStrategy.execute_betrayal_before_propagate_some net plan b t hb ht
  have hne' : plan.target_id ≠ plan.betrayer_id := fun h => hne h.symm
  refine ⟨_, hsome, ?_, ?_, ?_, ?_⟩
  · unfold BetrayalStrategy.execute_betrayal
    rw [hsome]
  · rw [InfluenceNetwork.get_node_add_edge_conflict, InfluenceNetwork.get_node_remove_edge,
      BetrayalStrategy.get_node_penalize_allies_frame Node.power (fun _ _ => rfl)]
    simp only [InfluenceNetwork.get_node_modify_node, hb, hne, if_true, if_false,
      Option.map_some']
    simp only [Node.modify_power, Node.mark_as_traitor]
    congr 1
    ring
  · rw [InfluenceNetwork.get_node_add_edge_conflict, InfluenceNetwork.get_node_remove_edge,
      BetrayalStrategy.get_node_penalize_allies_frame Node.power (fun _ _ => rfl)]
    simp only [InfluenceNetwork.get_node_modify_node, ht, hne', if_true, if_false,
      Option.map_some']
    simp only [Node.modify_power, Node.modify_loyalty]
    congr 1
    ring
  · intro id h1 h2
    rw [InfluenceNetwork.get_node_add_edge_conflict, InfluenceNetwork.get_node_remove_edge,
      BetrayalStrategy.get_node_penalize_allies_frame Node.power (fun _ _ => rfl)]
    simp only [InfluenceNetwork.get_node_modify_node, h1, h2, if_false]

/-- Witness for C1 on the plan of `Delta` against `Alpha` in the network of `main`. -/
theorem execute_betrayal_power_transfer_witness :
    main_network.get_node delta_betrays_alpha.betrayer_id = some main_delta ∧
    main_network.get_node delta_betrays_alpha.target_id = some main_alpha ∧
    delta_betrays_alpha.betrayer_id ≠ delta_betrays_alpha.target_id ∧
    ∃ mid : InfluenceNetwork,
      BetrayalStrategy.execute_betrayal_before_propagate main_network delta_betrays_alpha
        = some (mid, main_alpha.power * 0.6) ∧
      BetrayalStrategy.execute_betrayal main_network delta_betrays_alpha
        = mid.propagate_influence delta_betrays_alpha.betrayer_id
            (main_alpha.power * 0.6 * 0.3) ∧
      (mid.get_node delta_betrays_alpha.betrayer_id).map Node.power
        = some (main_delta.power + 0.6 * main_alpha.power) ∧
      (mid.get_node delta_betrays_alpha.target_id).map Node.power
        = some (main_alpha.power - 0.6 * main_alpha.power) ∧
      ∀ id, id ≠ delta_betrays_alpha.betrayer_id → id ≠ delta_betrays_alpha.target_id →
        (mid.get_node id).map Node.power = (main_network.get_node id).map Node.power :=
  ⟨by decide!, by decide!, by decide!,
    execute_betrayal_power_transfer main_network delta_betrays_alpha main_delta main_alpha
      (by decide!) (by decide!) (by decide!)⟩

/-- C2. With betrayer `b` and target `t` both present, the edge list after
`execute_betrayal` is the old list without its `b → t` edges, order kept,
followed by one new `CONFLICT` edge `b → t` of weight 1.0 and trust 0.8; that
edge is then the only `b → t` edge. -/
theorem execute_betrayal_edges (net : InfluenceNetwork) (plan : BetrayalPlan)
    (b t : Node)
    (hb : net.get_node plan.betrayer_id = some b)
    (ht : net.get_node plan.target_id = some t) :
    (BetrayalStrategy.execute_betrayal net plan).edges =
        net.edges.filter (fun e =>
          !(decide (e.source_id = plan.betrayer_id) && decide (e.target_id = plan.target_id)))
        ++ [{ source_id := plan.betrayer_id, target_id := plan.target_id,
              type := EdgeType.CONFLICT, weight := 1.0, trust_level := 0.8 }] ∧
    (BetrayalStrategy.execute_betrayal net plan).edges.filter (fun e =>
        decide (e.source_id = plan.betrayer_id) && decide (e.target_id = plan.target_id)) =
      [{ source_id := plan.betrayer_id, target_id := plan.target_id,
         type := EdgeType.CONFLICT, weight := 1.0, trust_level := 0.8 }] := by
  have hsome := BetrayalStrategy.execute_betrayal_before_propagate_some net plan b t hb ht
  have hedges : (BetrayalStrategy.execute_betrayal net plan).edges =
      net.edges.filter (fun e =>
          !(decide (e.source_id = plan.betrayer_id) && decide (e.target_id = plan.target_id)))
        ++ [{ source_id := plan.betrayer_id, target_id := plan.target_id,
              type := EdgeType.CONFLICT, weight := 1.0, trust_level := 0.8 }] := by
    unfold BetrayalStrategy.execute_betrayal
    rw [hsome]
    simp only
    rw [InfluenceNetwork.edges_propagate_influence, InfluenceNetwork.edges_add_edge_conflict,
      InfluenceNetwork.edges_remove_edge, BetrayalStrategy.edges_penalize_allies]
    rfl
  refine ⟨hedges, ?_⟩
  rw [hedges, List.filter_append, List.filter_filter]
  simp

/-- Witness for C2 on the plan of `Delta` against `Alpha` in the network of `main`. -/
theorem execute_betrayal_edges_witness :
    main_network.get_node delta_betrays_alpha.betrayer_id = some main_delta ∧
    main_network.get_node delta_betrays_alpha.target_id = some main_alpha ∧
    (BetrayalStrategy.execute_betrayal main_network delta_betrays_alpha).edges =
        main_network.edges.filter (fun e =>
          !(decide (e.source_id = delta_betrays_alpha.betrayer_id) &&
            decide (e.target_id = delta_betrays_alpha.target_id)))
        ++ [{ source_id := delta_betrays_alpha.betrayer_id,
              target_id := delta_betrays_alpha.target_id,
              type := EdgeType.CONFLICT, weight := 1.0, trust_level := 0.8 }] ∧
    (BetrayalStrategy.execute_betrayal main_network delta_betrays_alpha).edges.filter
        (fun e => decide (e.source_id = delta_betrays_alpha.betrayer_id) &&
          decide (e.target_id = delta_betrays_alpha.target_id)) =
      [{ source_id := delta_betrays_alpha.betrayer_id,
         target_id := delta_betrays_alpha.target_id,
         type := EdgeType.CONFLICT, weight := 1.0, trust_level := 0.8 }] :=
  ⟨by decide!, by decide!,
    execute_betrayal_edges main_network delta_betrays_alpha main_delta main_alpha
      (by decide!) (by decide!)⟩

/-- C3. When the betrayer id or the target id of the plan names no node,
`execute_betrayal` returns the network as it was: node map, edge list and id
counter. -/
theorem execute_betrayal_missing_endpoint (net : InfluenceNetwork) (plan : BetrayalPlan)
    (h : net.get_node plan.betrayer_id = none ∨ net.get_node plan.target_id = none) :
    BetrayalStrategy.execute_betrayal net plan = net := by
  unfold BetrayalStrategy.execute_betrayal
  rw [BetrayalStrategy.execute_betrayal_before_propagate_none net plan h]

/-- Witness for C3: a plan of `Delta` whose target id 9 names no node. -/
theorem execute_betrayal_missing_endpoint_witness :
    (main_network.get_node delta_betrays_nobody.betrayer_id = none ∨
      main_network.get_node delta_betrays_nobody.target_id = none) ∧
    BetrayalStrategy.execute_betrayal main_network delta_betrays_nobody = main_network :=
  ⟨Or.inr (by decide!),
    execute_betrayal_missing_endpoint main_network delta_betrays_nobody
      (Or.inr (by decide!))⟩

/-- The loop over the required allies lowers the loyalty of a node by 0.2 for
each occurrence of its id in the list. -/
theorem BetrayalStrategy.loyalty_penalize_allies (l : List Int) :
    ∀ (net : InfluenceNetwork) (k : Int),
      ((BetrayalStrategy.penalize_allies net l).get_node k).map Node.loyalty =
        (net.get_node k).map (fun n => n.loyalty - 0.2 * (l.count k : ℚ)) := by
  induction l with
  | nil =>
    intro net k
    simp [BetrayalStrategy.penalize_allies]
  | cons a rest ih =>
    intro net k
    have hunf : BetrayalStrategy.penalize_allies net (a :: rest) =
        BetrayalStrategy.penalize_allies
          (match net.get_node a with
            | some _ => net.modify_node a (fun n => n.modify_loyalty (-0.2))
            | none => net) rest := rfl
    rw [hunf, ih]
    by_cases hk : k = a
    · subst hk
      cases hn : net.get_node k with
      | none => simp [hn]
      | some nd =>
        simp only [InfluenceNetwork.get_node_modify_node, if_true, hn, Option.map_some',
          List.count_cons_self, Node.modify_loyalty]
        congr 1
        push_cast
        ring
    · have hka : ¬ a = k := fun h => hk h.symm
      have hcount : List.count k (a :: rest) = List.count k rest := by
        rw [List.count_cons]
        simp [hka]
      rw [hcount]
      cases hn : net.get_node a with
      | none => rfl
      | some nd =>
        simp only [InfluenceNetwork.get_node_modify_node, hk, if_false]

/-- C4. With betrayer and target both present, after `execute_betrayal` the
betrayer carries the traitor flag, and the loyalty of every node is its old
loyalty, minus 0.4 when it is the target, minus 0.2 for each occurrence of its
id in `required_allies`; an id naming no node still names none afterwards. -/
theorem execute_betrayal_loyalty_and_traitor (net : InfluenceNetwork)
    (plan : BetrayalPlan) (b t : Node)
    (hb : net.get_node plan.betrayer_id = some b)
    (ht : net.get_node plan.target_id = some t) :
    ((BetrayalStrategy.execute_betrayal net plan).get_node plan.betrayer_id).map
        Node.is_traitor = some true ∧
    (∀ (id : Int) (n : Node), net.get_node id = some n →
      ((BetrayalStrategy.execute_betrayal net plan).get_node id).map Node.loyalty =
        some (n.loyalty - (if id = plan.target_id then 0.4 else 0)
          - 0.2 * (plan.required_allies.count id : ℚ))) ∧
    (∀ id : Int, net.get_node id = none →
      (BetrayalStrategy.execute_betrayal net plan).get_node id = none) := by
  have hsome := BetrayalStrategy.execute_betrayal_before_propagate_some net plan b t hb ht
  have hexec : ∀ {β : Type} (g : Node → β), (∀ n a, g (Node.modify_power n a) = g n) →
      ∀ k, ((BetrayalStrategy.execute_betrayal net plan).get_node k).map g =
        ((BetrayalStrategy.penalize_allies
          ((((net.modify_node plan.betrayer_id Node.mark_as_traitor).modify_node
            plan.target_id (fun n => n.modify_power (-(t.power * 0.6)))).modify_node
            plan.betrayer_id (fun n => n.modify_power (t.power * 0.6))).modify_node
            plan.target_id (fun n => n.modify_loyalty (-0.4)))
          plan.required_allies).get_node k).map g := by
    intro β g hg k
    unfold BetrayalStrategy.execute_betrayal
    rw [hsome]
    simp only
    rw [InfluenceNetwork.get_node_propagate_influence_frame g hg,
      InfluenceNetwork.get_node_add_edge_conflict, InfluenceNetwork.get_node_remove_edge]
  refine ⟨?_, ?_, ?_⟩
  · rw [hexec Node.is_traitor (fun _ _ => rfl),
      BetrayalStrategy.get_node_penalize_allies_frame Node.is_traitor (fun _ _ => rfl)]
    by_cases hbt : plan.betrayer_id = plan.target_id
    · simp [InfluenceNetwork.get_node_modify_node, hb, hbt.symm,
        Node.modify_power, Node.mark_as_traitor, Node.modify_loyalty]
    · simp [InfluenceNetwork.get_node_modify_node, hb, hbt,
        Node.modify_power, Node.mark_as_traitor, Node.modify_loyalty]
  · intro id n hn
    rw [hexec Node.loyalty (fun _ _ => rfl), BetrayalStrategy.loyalty_penalize_allies]
    by_cases hit : id = plan.target_id
    · subst hit
      by_cases hbt : plan.target_id = plan.betrayer_id
      · have hn' : net.get_node plan.betrayer_id = some n := hbt ▸ hn
        simp only [InfluenceNetwork.get_node_modify_node, hn', hbt, if_true,
          Option.map_some', Node.modify_power, Node.mark_as_traitor, Node.modify_loyalty]
        congr 1
        ring
      · simp only [InfluenceNetwork.get_node_modify_node, hn, hbt, if_true, if_false,
          Option.map_some', Node.modify_power, Node.mark_as_traitor, Node.modify_loyalty]
        congr 1
        ring
    · by_cases hib : id = plan.betrayer_id
      · subst hib
        simp only [InfluenceNetwork.get_node_modify_node, hn, hit, if_true, if_false,
          Option.map_some', Node.modify_power, Node.mark_as_traitor, Node.modify_loyalty]
        congr 1
        ring
      · simp only [InfluenceNetwork.get_node_modify_node, hn, hit, hib, if_false,
          Option.map_some']
        congr 1
        ring
  · intro id hn
    have h := hexec (fun _ : Node => ()) (fun _ _ => rfl) id
    rw [BetrayalStrategy.get_node_penalize_allies_frame (fun _ : Node => ())
      (fun _ _ => rfl)] at h
    simp only [InfluenceNetwork.get_node_modify_node_frame (fun _ : Node => ()) _ _ _
      (fun _ => rfl), hn, Option.map_none'] at h
    simpa using h

/-- Witness for C4 on the plan of `Delta` against `Alpha`, which requires the
allies 1 and 5. -/
theorem execute_betrayal_loyalty_and_traitor_witness :
    main_network.get_node delta_betrays_alpha.betrayer_id = some main_delta ∧
    main_network.get_node delta_betrays_alpha.target_id = some main_alpha ∧
    ((BetrayalStrategy.execute_betrayal main_network delta_betrays_alpha).get_node
        delta_betrays_alpha.betrayer_id).map Node.is_traitor = some true ∧
    (∀ (id : Int) (n : Node), main_network.get_node id = some n →
      ((BetrayalStrategy.execute_betrayal main_network delta_betrays_alpha).get_node
          id).map Node.loyalty =
        some (n.loyalty - (if id = delta_betrays_alpha.target_id then 0.4 else 0)
          - 0.2 * (delta_betrays_alpha.required_allies.count id : ℚ))) ∧
    (∀ id : Int, main_network.get_node id = none →
      (BetrayalStrategy.execute_betrayal main_network delta_betrays_alpha).get_node id
        = none) :=
  ⟨by decide!, by decide!,
    execute_betrayal_loyalty_and_traitor main_network delta_betrays_alpha main_delta
      main_alpha (by decide!) (by decide!)⟩

/-! ## analyze_betrayal_opportunity -/

/-- With both endpoints present every field of the plan is computed. -/
theorem BetrayalStrategy.analyze_betrayal_opportunity_some (net : InfluenceNetwork)
    (betrayer target : Int) (uninit_cost : ℚ) (b t : Node)
    (hb : net.get_node betrayer = some b) (ht : net.get_node target = some t) :
    BetrayalStrategy.analyze_betrayal_opportunity net betrayer target uninit_cost =
      { betrayer_id := betrayer, target_id := target,
        expected_gain := b.calculate_betrayal_gain t.power,
        success_probability :=
          BetrayalStrategy.calculate_betrayal_success_probability net betrayer target,
        required_allies := BetrayalStrategy.identify_necessary_allies net betrayer target,
        total_cost := 2.0
          + ((BetrayalStrategy.identify_necessary_allies net betrayer target).length : ℚ) * 1.5
          + (1.0 - BetrayalStrategy.calculate_betrayal_success_probability net betrayer target)
            * 5.0 } := by
  unfold BetrayalStrategy.analyze_betrayal_opportunity
  rw [hb, ht]
  rfl

/-- With an endpoint missing the plan is returned as it was initialised. -/
theorem BetrayalStrategy.analyze_betrayal_opportunity_none (net : InfluenceNetwork)
    (betrayer target : Int) (uninit_cost : ℚ)
    (h : net.get_node betrayer = none ∨ net.get_node target = none) :
    BetrayalStrategy.analyze_betrayal_opportunity net betrayer target uninit_cost =
      { betrayer_id := betrayer, target_id := target, expected_gain := 0,
        success_probability := 0, required_allies := [], total_cost := uninit_cost } := by
  unfold BetrayalStrategy.analyze_betrayal_opportunity
  rcases h with h | h
  · rw [h]
  · rw [h]
    cases net.get_node betrayer <;> rfl

/-- C5. For every pair of existing nodes, equal or not, the success probability
of the analysed plan lies between 0.05 and 0.95. -/
theorem analyze_success_probability_bounds (net : InfluenceNetwork)
    (betrayer target : Int) (uninit_cost : ℚ) (b t : Node)
    (hb : net.get_node betrayer = some b) (ht : net.get_node target = some t) :
    0.05 ≤ (BetrayalStrategy.analyze_betrayal_opportunity net betrayer target
        uninit_cost).success_probability ∧
    (BetrayalStrategy.analyze_betrayal_opportunity net betrayer target
        uninit_cost).success_probability ≤ 0.95 := by
  rw [BetrayalStrategy.analyze_betrayal_opportunity_some net betrayer target uninit_cost
    b t hb ht]
  simp only [BetrayalStrategy.calculate_betrayal_success_probability, hb, ht]
  constructor
  · apply le_min
    · norm_num
    · exact le_max_left _ _
  · exact min_le_left _ _

/-- Witness for C5: `Delta` against `Alpha` in the network of `main`. -/
theorem analyze_success_probability_bounds_witness :
    main_network.get_node 3 = some main_delta ∧
    main_network.get_node 0 = some main_alpha ∧
    0.05 ≤ (BetrayalStrategy.analyze_betrayal_opportunity main_network 3 0
        0).success_probability ∧
    (BetrayalStrategy.analyze_betrayal_opportunity main_network 3 0
        0).success_probability ≤ 0.95 :=
  ⟨by decide!, by decide!,
    analyze_success_probability_bounds main_network 3 0 0 main_delta main_alpha
      (by decide!) (by decide!)⟩

/-- C6. When the betrayer id or the target id names no node, the analysis
returns a plan with the two ids as given, expected gain 0, success probability 0
and no required allies. -/
theorem analyze_missing_endpoint (net : InfluenceNetwork) (betrayer target : Int)
    (uninit_cost : ℚ)
    (h : net.get_node betrayer = none ∨ net.get_node target = none) :
    (BetrayalStrategy.analyze_betrayal_opportunity net betrayer target
        uninit_cost).betrayer_id = betrayer ∧
    (BetrayalStrategy.analyze_betrayal_opportunity net betrayer target
        uninit_cost).target_id = target ∧
    (BetrayalStrategy.analyze_betrayal_opportunity net betrayer target
        uninit_cost).expected_gain = 0 ∧
    (BetrayalStrategy.analyze_betrayal_opportunity net betrayer target
        uninit_cost).success_probability = 0 ∧
    (BetrayalStrategy.analyze_betrayal_opportunity net betrayer target
        uninit_cost).required_allies = [] := by
  rw [BetrayalStrategy.analyze_betrayal_opportunity_none net betrayer target uninit_cost h]
  exact ⟨rfl, rfl, rfl, rfl, rfl⟩

/-- Witness for C6: `Delta` against id 9, which names no node. -/
theorem analyze_missing_endpoint_witness :
    (main_network.get_node 3 = none ∨ main_network.get_node 9 = none) ∧
    (BetrayalStrategy.analyze_betrayal_opportunity main_network 3 9 7).betrayer_id = 3 ∧
    (BetrayalStrategy.analyze_betrayal_opportunity main_network 3 9 7).target_id = 9 ∧
    (BetrayalStrategy.analyze_betrayal_opportunity main_network 3 9 7).expected_gain = 0 ∧
    (BetrayalStrategy.analyze_betrayal_opportunity main_network 3 9
        7).success_probability = 0 ∧
    (BetrayalStrategy.analyze_betrayal_opportunity main_network 3 9 7).required_allies
        = [] :=
  ⟨Or.inr (by decide!),
    analyze_missing_endpoint main_network 3 9 7 (Or.inr (by decide!))⟩

/-- The loop of `identify_necessary_allies`, started with fewer than two allies
collected, returns the first two of the collected ids followed by the ids of the
list that name an existing node of power above 5.0. -/
theorem BetrayalStrategy.collect_allies_eq (net : InfluenceNetwork) (l : List Int) :
    ∀ acc : List Int, acc.length < 2 →
      BetrayalStrategy.collect_allies net l acc =
        (acc ++ l.filter (fun a =>
          match net.get_node a with
          | some n => decide (n.power > 5.0)
          | none => false)).take 2 := by
  induction l with
  | nil =>
    intro acc hacc
    simp only [BetrayalStrategy.collect_allies, List.filter_nil, List.append_nil]
    exact (List.take_of_length_le (by omega)).symm
  | cons a rest ih =>
    intro acc hacc
    rw [BetrayalStrategy.collect_allies]
    cases hn : net.get_node a with
    | none =>
      simp only [List.filter_cons, hn]
      exact ih acc hacc
    | some nd =>
      by_cases hp : nd.power > 5.0
      · simp only [hp, if_true, List.filter_cons, hn, decide_True]
        by_cases hlen : (acc ++ [a]).length ≥ 2
        · rw [if_pos hlen]
          have h2 : (acc ++ [a]).length = 2 := by
            simp only [List.length_append, List.length_singleton] at hlen ⊢
            omega
          have : acc ++ a :: List.filter (fun a =>
              match net.get_node a with
              | some n => decide (n.power > 5.0)
              | none => false) rest = (acc ++ [a]) ++ List.filter (fun a =>
              match net.get_node a with
              | some n => decide (n.power > 5.0)
              | none => false) rest := by simp
          rw [this, List.take_append_of_le_length (by omega), List.take_of_length_le (by omega)]
        · rw [if_neg hlen, ih (acc ++ [a]) (by omega)]
          simp
      · simp only [hp, if_false, List.filter_cons, hn, decide_False]
        exact ih acc hacc

/-- C9. For existing betrayer `b` and target `t`, the required allies of the
analysed plan are empty when `t.power ≤ 1.5 * b.power`; otherwise they are the
first `min 2 k` of the `k` ids of `b`'s ally list, in list order, that name an
existing node of power above 5.0. Two isolated agents `A` (power 5) and `B`
(power 50) give no required allies although `50 > 5 * 1.5`. -/
theorem analyze_required_allies (net : InfluenceNetwork) (betrayer target : Int)
    (uninit_cost : ℚ) (b t : Node)
    (hb : net.get_node betrayer = some b) (ht : net.get_node target = some t) :
    (t.power ≤ 1.5 * b.power →
      (BetrayalStrategy.analyze_betrayal_opportunity net betrayer target
        uninit_cost).required_allies = []) ∧
    (¬ t.power ≤ 1.5 * b.power →
      (BetrayalStrategy.analyze_betrayal_opportunity net betrayer target
        uninit_cost).required_allies =
        (b.allies.filter (fun a =>
          match net.get_node a with
          | some n => decide (n.power > 5.0)
          | none => false)).take
          (min 2 (b.allies.filter (fun a =>
            match net.get_node a with
            | some n => decide (n.power > 5.0)
            | none => false)).length)) ∧
    ((BetrayalStrategy.analyze_betrayal_opportunity two_isolated_agents 0 1
        uninit_cost).required_allies = [] ∧ (50 : ℚ) > 5 * 1.5) := by
  rw [BetrayalStrategy.analyze_betrayal_opportunity_some net betrayer target uninit_cost
    b t hb ht]
  simp only [BetrayalStrategy.identify_necessary_allies, hb, ht]
  refine ⟨?_, ?_, ?_, by norm_num⟩
  · intro h
    have : ¬ t.power > b.power * 1.5 := by
      rw [mul_comm] at h
      exact not_lt.mpr h
    rw [if_neg this]
  · intro h
    have : t.power > b.power * 1.5 := by
      rw [mul_comm] at h
      exact not_le.mp h
    rw [if_pos this, BetrayalStrategy.collect_allies_eq net b.allies [] (by decide)]
    simp only [List.nil_append]
    rw [List.take_eq_take]
    simp
  · rw [BetrayalStrategy.analyze_betrayal_opportunity_some two_isolated_agents 0 1
      uninit_cost (Node.ctor 0 "A" 5) (Node.ctor 1 "B" 50) rfl rfl]
    show BetrayalStrategy.identify_necessary_allies two_isolated_agents 0 1 = []
    decide!

/-- Witness for C9: `Zeta` (power 6) against `Beta` (power 12) in the network of
`main`; the only ally of `Zeta`, `Delta` (power 8), is required. -/
theorem analyze_required_allies_witness :
    main_network.get_node 5 = some main_zeta ∧
    main_network.get_node 1 = some main_beta ∧
    ¬ main_beta.power ≤ 1.5 * main_zeta.power ∧
    (BetrayalStrategy.analyze_betrayal_opportunity main_network 5 1 0).required_allies
      = [3] :=
  ⟨by decide!, by decide!, by decide!,
    ((analyze_required_allies main_network 5 1 0 main_zeta main_beta
      (by decide!) (by decide!)).2.1 (by decide!)).trans (by decide!)⟩

/-! ## Edge trust -/

/-- C10. For every edge and every delta, `modify_trust` leaves the trust level
at `max 0 (min 1 (old + delta))`, a value between 0 and 1; consequently the trust
level of a freshly constructed edge lies between 0 and 1 after any sequence of
`modify_trust` calls, the empty one included. -/
theorem modify_trust_clamped :
    (∀ (e : Edge) (delta : ℚ),
      (e.modify_trust delta).trust_level = max 0 (min 1 (e.trust_level + delta)) ∧
      0 ≤ (e.modify_trust delta).trust_level ∧ (e.modify_trust delta).trust_level ≤ 1) ∧
    (∀ (source target : Int) (type : EdgeType) (weight : ℚ) (deltas : List ℚ),
      0 ≤ (deltas.foldl Edge.modify_trust (Edge.ctor source target type weight)).trust_level ∧
      (deltas.foldl Edge.modify_trust (Edge.ctor source target type weight)).trust_level ≤ 1) := by
  have hstep : ∀ (e : Edge) (delta : ℚ),
      (e.modify_trust delta).trust_level = max 0 (min 1 (e.trust_level + delta)) ∧
      0 ≤ (e.modify_trust delta).trust_level ∧ (e.modify_trust delta).trust_level ≤ 1 := by
    intro e delta
    have h : (e.modify_trust delta).trust_level = max 0 (min 1 (e.trust_level + delta)) := by
      simp only [Edge.modify_trust]
      norm_num
    refine ⟨h, ?_, ?_⟩
    · rw [h]
      exact le_max_left _ _
    · rw [h]
      exact max_le (by norm_num) (min_le_left _ _)
  refine ⟨hstep, ?_⟩
  intro source target type weight deltas
  have hall : ∀ (ds : List ℚ) (e : Edge), 0 ≤ e.trust_level ∧ e.trust_level ≤ 1 →
      0 ≤ (ds.foldl Edge.modify_trust e).trust_level ∧
      (ds.foldl Edge.modify_trust e).trust_level ≤ 1 := by
    intro ds
    induction ds with
    | nil => intro e he; exact he
    | cons d rest ih =>
      intro e _
      rw [List.foldl_cons]
      exact ih _ (hstep e d).2
  apply hall
  simp only [Edge.ctor]
  constructor <;> norm_num

/-! ## find_optimal_betrayals -/

theorem std_sort_perm {α : Type} (comp : α → α → Bool) (l : List α) :
    (std_sort comp l).Perm l :=
  List.perm_insertionSort _ l

/-- Sorting plans with the comparator `a.calculate_roi() > b.calculate_roi()`
leaves them in non-increasing order of ROI. -/
theorem std_sort_roi_sorted (l : List BetrayalPlan) :
    List.Pairwise (fun p q => p.calculate_roi ≥ q.calculate_roi)
      (std_sort (fun a b => decide (a.calculate_roi > b.calculate_roi)) l) := by
  haveI : IsTotal BetrayalPlan
      (fun a b => (fun a b => decide (a.calculate_roi > b.calculate_roi)) b a = false) :=
    ⟨fun a b => by
      simp only [decide_eq_false_iff_not, not_lt]
      exact le_total _ _⟩
  haveI : IsTrans BetrayalPlan
      (fun a b => (fun a b => decide (a.calculate_roi > b.calculate_roi)) b a = false) :=
    ⟨fun a b c hab hbc => by
      simp only [decide_eq_false_iff_not, not_lt] at hab hbc ⊢
      exact le_trans hbc hab⟩
  have h := List.sorted_insertionSort
    (fun a b => (fun a b => decide (a.calculate_roi > b.calculate_roi)) b a = false) l
  unfold std_sort
  refine List.Pairwise.imp ?_ h
  intro a b hab
  simp only [decide_eq_false_iff_not, not_lt] at hab
  exact hab

/-- The result of `find_optimal_betrayals` is a sublist of the sorted candidates. -/
theorem BetrayalStrategy.find_optimal_betrayals_sublist (net : InfluenceNetwork)
    (betrayer_id : Int) (top_n : Int) (uninit_cost : ℚ) :
    List.Sublist (BetrayalStrategy.find_optimal_betrayals net betrayer_id top_n uninit_cost)
      (std_sort (fun a b => decide (a.calculate_roi > b.calculate_roi))
        (BetrayalStrategy.candidate_plans net betrayer_id uninit_cost)) := by
  unfold BetrayalStrategy.find_optimal_betrayals
  cases net.get_node betrayer_id with
  | none => exact List.nil_sublist _
  | some nd =>
    simp only
    split_ifs
    · exact List.take_sublist _ _
    · exact List.Sublist.refl _

theorem size_t_of_int_le (n : Int) (h : 0 ≤ n) : (size_t_of_int n : Int) ≤ n := by
  unfold size_t_of_int
  have h1 : 0 ≤ n % (2 ^ 64 : Int) := Int.emod_nonneg _ (by norm_num)
  rw [Int.toNat_of_nonneg h1]
  by_cases hlt : n < (2 ^ 64 : Int)
  · rw [Int.emod_eq_of_lt h hlt]
  · have h2 : n % (2 ^ 64 : Int) < (2 ^ 64 : Int) := Int.emod_lt_of_pos _ (by norm_num)
    omega

/-- C7. For every `top_n ≥ 0` the list returned by `find_optimal_betrayals` has
at most `top_n` plans and is ordered by non-increasing ROI, for consecutive
plans and hence for every pair, where ROI is `expected_gain / (total_cost + 0.1)`. -/
theorem find_optimal_betrayals_sorted (net : InfluenceNetwork) (betrayer_id : Int)
    (top_n : Int) (uninit_cost : ℚ) (h : 0 ≤ top_n) :
    ((BetrayalStrategy.find_optimal_betrayals net betrayer_id top_n uninit_cost).length : Int)
      ≤ top_n ∧
    List.Chain' (fun p q => p.calculate_roi ≥ q.calculate_roi)
      (BetrayalStrategy.find_optimal_betrayals net betrayer_id top_n uninit_cost) ∧
    List.Pairwise (fun p q => p.calculate_roi ≥ q.calculate_roi)
      (BetrayalStrategy.find_optimal_betrayals net betrayer_id top_n uninit_cost) ∧
    ∀ p : BetrayalPlan, p.calculate_roi = p.expected_gain / (p.total_cost + 0.1) := by
  have hpw : List.Pairwise (fun p q => p.calculate_roi ≥ q.calculate_roi)
      (BetrayalStrategy.find_optimal_betrayals net betrayer_id top_n uninit_cost) :=
    List.Pairwise.sublist
      (BetrayalStrategy.find_optimal_betrayals_sublist net betrayer_id top_n uninit_cost)
      (std_sort_roi_sorted _)
  refine ⟨?_, List.Pairwise.chain' hpw, hpw, fun _ => rfl⟩
  have hle := size_t_of_int_le top_n h
  unfold BetrayalStrategy.find_optimal_betrayals
  cases net.get_node betrayer_id with
  | none => simpa using h
  | some nd =>
    simp only
    split_ifs with hlen
    · rw [List.length_take]
      have : (min (size_t_of_int top_n) (std_sort (fun a b =>
          decide (a.calculate_roi > b.calculate_roi))
          (BetrayalStrategy.candidate_plans net betrayer_id uninit_cost)).length : Nat)
          ≤ size_t_of_int top_n := min_le_left _ _
      exact le_trans (by exact_mod_cast this) hle
    · have : (std_sort (fun a b => decide (a.calculate_roi > b.calculate_roi))
          (BetrayalStrategy.candidate_plans net betrayer_id uninit_cost)).length
          ≤ size_t_of_int top_n := not_lt.mp hlen
      exact le_trans (by exact_mod_cast this) hle

/-- Witness for C7: the two best plans of `Alpha` in the network of `main`. -/
theorem find_optimal_betrayals_sorted_witness :
    (0 : Int) ≤ 2 ∧
    ((BetrayalStrategy.find_optimal_betrayals main_network 0 2 0).length : Int) ≤ 2 ∧
    List.Chain' (fun p q => p.calculate_roi ≥ q.calculate_roi)
      (BetrayalStrategy.find_optimal_betrayals main_network 0 2 0) ∧
    List.Pairwise (fun p q => p.calculate_roi ≥ q.calculate_roi)
      (BetrayalStrategy.find_optimal_betrayals main_network 0 2 0) ∧
    ∀ p : BetrayalPlan, p.calculate_roi = p.expected_gain / (p.total_cost + 0.1) :=
  ⟨by decide, find_optimal_betrayals_sorted main_network 0 2 0 (by decide)⟩

theorem NodeMap.find_ne_none_iff (m : NodeMap) (k : Int) :
    NodeMap.find m k ≠ none ↔ k ∈ m.map Prod.fst := by
  induction m with
  | nil => simp [NodeMap.find_nil]
  | cons kn rest ih =>
    obtain ⟨k0, n0⟩ := kn
    rw [NodeMap.find_cons]
    by_cases h : k0 = k
    · simp [h]
    · have h' : ¬ k = k0 := fun e => h e.symm
      simp [h, h', ih]

theorem NodeMap.ordered_nodup_keys (m : NodeMap) (h : NodeMap.ordered m) :
    (m.map Prod.fst).Nodup := by
  unfold NodeMap.ordered at h
  rw [List.Nodup, List.pairwise_map]
  exact List.Pairwise.imp (fun hab => ne_of_lt hab) h

theorem BetrayalStrategy.analyze_betrayal_opportunity_target_id (net : InfluenceNetwork)
    (betrayer target : Int) (uninit_cost : ℚ) :
    (BetrayalStrategy.analyze_betrayal_opportunity net betrayer target uninit_cost).target_id
      = target := by
  unfold BetrayalStrategy.analyze_betrayal_opportunity
  simp only
  split <;> rfl

/-- The loop of `find_optimal_betrayals` keeps, in key order, the analysed plan
of every key other than the betrayer whose plan passes the two thresholds. -/
theorem BetrayalStrategy.candidate_plans_eq (net : InfluenceNetwork) (betrayer_id : Int)
    (uninit_cost : ℚ) :
    BetrayalStrategy.candidate_plans net betrayer_id uninit_cost =
      ((net.nodes.map Prod.fst).filter (fun k =>
        decide (k ≠ betrayer_id) &&
        decide ((BetrayalStrategy.analyze_betrayal_opportunity net betrayer_id k
            uninit_cost).expected_gain > 0 ∧
          (BetrayalStrategy.analyze_betrayal_opportunity net betrayer_id k
            uninit_cost).success_probability > 0.3))).map
        (fun k => BetrayalStrategy.analyze_betrayal_opportunity net betrayer_id k
          uninit_cost) := by
  unfold BetrayalStrategy.candidate_plans
  have key : ∀ (l : NodeMap) (acc : List BetrayalPlan),
      l.foldl (fun plans pair =>
        if pair.1 = betrayer_id then plans
        else
          let plan := BetrayalStrategy.analyze_betrayal_opportunity net betrayer_id
            pair.1 uninit_cost
          if plan.expected_gain > 0 ∧ plan.success_probability > 0.3 then plans ++ [plan]
          else plans) acc =
      acc ++ ((l.map Prod.fst).filter (fun k =>
        decide (k ≠ betrayer_id) &&
        decide ((BetrayalStrategy.analyze_betrayal_opportunity net betrayer_id k
            uninit_cost).expected_gain > 0 ∧
          (BetrayalStrategy.analyze_betrayal_opportunity net betrayer_id k
            uninit_cost).success_probability > 0.3))).map
        (fun k => BetrayalStrategy.analyze_betrayal_opportunity net betrayer_id k
          uninit_cost) := by
    intro l
    induction l with
    | nil => intro acc; simp
    | cons kn rest ih =>
      intro acc
      rw [List.foldl_cons, ih]
      by_cases hk : kn.1 = betrayer_id
      · simp [hk]
      · by_cases hp : (BetrayalStrategy.analyze_betrayal_opportunity net betrayer_id kn.1
            uninit_cost).expected_gain > 0 ∧
          (BetrayalStrategy.analyze_betrayal_opportunity net betrayer_id kn.1
            uninit_cost).success_probability > 0.3
        · simp [hk, hp, List.filter_cons]
        · simp [hk, hp, List.filter_cons]
  simpa using key net.nodes []

/-- The targets of the candidate plans are the keys that pass the filter. -/
theorem BetrayalStrategy.candidate_plans_targets (net : InfluenceNetwork)
    (betrayer_id : Int) (uninit_cost : ℚ) :
    (BetrayalStrategy.candidate_plans net betrayer_id uninit_cost).map
        BetrayalPlan.target_id =
      (net.nodes.map Prod.fst).filter (fun k =>
        decide (k ≠ betrayer_id) &&
        decide ((BetrayalStrategy.analyze_betrayal_opportunity net betrayer_id k
            uninit_cost).expected_gain > 0 ∧
          (BetrayalStrategy.analyze_betrayal_opportunity net betrayer_id k
            uninit_cost).success_probability > 0.3)) := by
  rw [BetrayalStrategy.candidate_plans_eq, List.map_map]
  conv_rhs => rw [← List.map_id (List.filter _ _)]
  apply List.map_congr_left
  intro k _
  exact BetrayalStrategy.analyze_betrayal_opportunity_target_id net betrayer_id k uninit_cost

theorem size_t_of_int_eq (n : Int) (h0 : 0 ≤ n) (h1 : n ≤ 2147483647) :
    (size_t_of_int n : Int) = n := by
  unfold size_t_of_int
  rw [Int.emod_eq_of_lt h0 (by omega), Int.toNat_of_nonneg h0]

/-- C8. For a network whose node map has ascending keys: when the betrayer id
names no node the result of `find_optimal_betrayals` is empty; when it names one,
every returned plan is the analysis of the betrayer against some existing node
other than the betrayer, has expected gain above 0 and success probability above
0.3, no target id occurs twice, and for `top_n` (an `int`) at least the number of
nodes an existing node other than the betrayer is a target exactly when its
analysis has expected gain above 0 and success probability above 0.3. -/
theorem find_optimal_betrayals_plans (net : InfluenceNetwork) (betrayer_id : Int)
    (top_n : Int) (uninit_cost : ℚ) (hord : NodeMap.ordered net.nodes) :
    (net.get_node betrayer_id = none →
      BetrayalStrategy.find_optimal_betrayals net betrayer_id top_n uninit_cost = []) ∧
    (net.get_node betrayer_id ≠ none →
      (∀ p ∈ BetrayalStrategy.find_optimal_betrayals net betrayer_id top_n uninit_cost,
        ∃ t : Int, t ≠ betrayer_id ∧ net.get_node t ≠ none ∧
          p = BetrayalStrategy.analyze_betrayal_opportunity net betrayer_id t uninit_cost ∧
          p.expected_gain > 0 ∧ p.success_probability > 0.3) ∧
      ((BetrayalStrategy.find_optimal_betrayals net betrayer_id top_n uninit_cost).map
        BetrayalPlan.target_id).Nodup ∧
      ((net.nodes.length : Int) ≤ top_n → top_n ≤ 2147483647 →
        ∀ t : Int, t ≠ betrayer_id → net.get_node t ≠ none →
          (t ∈ (BetrayalStrategy.find_optimal_betrayals net betrayer_id top_n
              uninit_cost).map BetrayalPlan.target_id ↔
            (BetrayalStrategy.analyze_betrayal_opportunity net betrayer_id t
                uninit_cost).expected_gain > 0 ∧
              (BetrayalStrategy.analyze_betrayal_opportunity net betrayer_id t
                uninit_cost).success_probability > 0.3))) := by
  have hsub := BetrayalStrategy.find_optimal_betrayals_sublist net betrayer_id top_n
    uninit_cost
  have hperm := std_sort_perm (fun a b : BetrayalPlan =>
    decide (a.calculate_roi > b.calculate_roi))
    (BetrayalStrategy.candidate_plans net betrayer_id uninit_cost)
  have htargets := BetrayalStrategy.candidate_plans_targets net betrayer_id uninit_cost
  refine ⟨?_, ?_⟩
  · intro hnone
    unfold BetrayalStrategy.find_optimal_betrayals
    rw [hnone]
  · intro hsome
    refine ⟨?_, ?_, ?_⟩
    · intro p hp
      have hp1 := hperm.subset (hsub.subset hp)
      rw [BetrayalStrategy.candidate_plans_eq, List.mem_map] at hp1
      obtain ⟨k, hk, hkp⟩ := hp1
      rw [List.mem_filter] at hk
      obtain ⟨hkeys, hpass⟩ := hk
      simp only [Bool.and_eq_true, decide_eq_true_eq] at hpass
      refine ⟨k, hpass.1, ?_, hkp.symm, ?_, ?_⟩
      · exact (NodeMap.find_ne_none_iff net.nodes k).mpr hkeys
      · rw [← hkp]; exact hpass.2.1
      · rw [← hkp]; exact hpass.2.2
    · have h1 : List.Sublist
          ((BetrayalStrategy.find_optimal_betrayals net betrayer_id top_n uninit_cost).map
            BetrayalPlan.target_id)
          ((std_sort (fun a b => decide (a.calculate_roi > b.calculate_roi))
            (BetrayalStrategy.candidate_plans net betrayer_id uninit_cost)).map
            BetrayalPlan.target_id) := hsub.map _
      apply List.Nodup.sublist h1
      rw [(hperm.map BetrayalPlan.target_id).nodup_iff, htargets]
      exact (NodeMap.ordered_nodup_keys net.nodes hord).filter _
    · intro hlen hint t htb htex
      have hfull : BetrayalStrategy.find_optimal_betrayals net betrayer_id top_n uninit_cost =
          std_sort (fun a b => decide (a.calculate_roi > b.calculate_roi))
            (BetrayalStrategy.candidate_plans net betrayer_id uninit_cost) := by
        unfold BetrayalStrategy.find_optimal_betrayals
        cases hn : net.get_node betrayer_id with
        | none => exact absurd hn hsome
        | some nd =>
          simp only
          rw [if_neg]
          rw [hperm.length_eq]
          have hc : (BetrayalStrategy.candidate_plans net betrayer_id uninit_cost).length
              ≤ net.nodes.length := by
            have := congrArg List.length htargets
            rw [List.length_map] at this
            rw [this]
            exact le_trans (List.length_filter_le _ _) (by rw [List.length_map])
          have hsz := size_t_of_int_eq top_n (le_trans (Int.natCast_nonneg _) hlen) hint
          omega
      rw [hfull, (hperm.map BetrayalPlan.target_id).mem_iff, htargets, List.mem_filter]
      have hkeys : t ∈ net.nodes.map Prod.fst :=
        (NodeMap.find_ne_none_iff net.nodes t).mp htex
      simp only [Bool.and_eq_true, decide_eq_true_eq]
      constructor
      · intro h; exact h.2.2
      · intro h; exact ⟨hkeys, htb, h⟩

/-- Witness for C8: in the network of `main`, whose six keys ascend, the plans
of `Zeta` (id 5) with `top_n = 6` have distinct targets, and `Beta` (id 1) is
among them. -/
theorem find_optimal_betrayals_plans_witness :
    NodeMap.ordered main_network.nodes ∧
    main_network.get_node 5 ≠ none ∧
    ((BetrayalStrategy.find_optimal_betrayals main_network 5 6 0).map
        BetrayalPlan.target_id).Nodup ∧
    (1 ∈ (BetrayalStrategy.find_optimal_betrayals main_network 5 6 0).map
        BetrayalPlan.target_id ↔
      (BetrayalStrategy.analyze_betrayal_opportunity main_network 5 1 0).expected_gain > 0 ∧
        (BetrayalStrategy.analyze_betrayal_opportunity main_network 5 1
          0).success_probability > 0.3) :=
  ⟨by unfold NodeMap.ordered; decide, by decide!,
    ((find_optimal_betrayals_plans main_network 5 6 0
      (by unfold NodeMap.ordered; decide)).2 (by decide!)).2.1,
    ((find_optimal_betrayals_plans main_network 5 6 0
      (by unfold NodeMap.ordered; decide)).2 (by decide!)).2.2 (by decide!) (by decide)
      1 (by decide) (by decide!)⟩

/-! ## Node vulnerability and betrayal gain -/

/-- C11. For every node, `calculate_vulnerability` is
`max 0 (1 / (power + 1) - 0.1 * |allies|)` and hence never negative; a node of
power 10 with exactly one ally has vulnerability exactly 0. -/
theorem calculate_vulnerability_formula :
    (∀ n : Node,
      n.calculate_vulnerability = max 0 (1 / (n.power + 1) - 0.1 * (n.allies.length : ℚ)) ∧
      0 ≤ n.calculate_vulnerability) ∧
    (∀ n : Node, n.power = 10 → n.allies.length = 1 → n.calculate_vulnerability = 0) ∧
    node_power_10_one_ally.power = 10 ∧ node_power_10_one_ally.allies.length = 1 ∧
    node_power_10_one_ally.calculate_vulnerability = 0 := by
  have hform : ∀ n : Node,
      n.calculate_vulnerability = max 0 (1 / (n.power + 1) - 0.1 * (n.allies.length : ℚ)) := by
    intro n
    simp only [Node.calculate_vulnerability]
    norm_num
    rw [mul_comm]
  have hten : ∀ n : Node, n.power = 10 → n.allies.length = 1 →
      n.calculate_vulnerability = 0 := by
    intro n hp ha
    rw [hform, hp, ha]
    norm_num
  refine ⟨fun n => ⟨hform n, ?_⟩, hten, by decide!, by decide!, hten _ (by decide!) (by decide!)⟩
  rw [hform]
  exact le_max_left _ _

/-- C12, as stated, fails: a node of power -2 and a node of power 0, both without
allies, have vulnerability 0 and 1, so the node with more power is the more
vulnerable one. -/
theorem calculate_vulnerability_not_monotone :
    (Node.ctor 0 "A" (-2)).power ≤ (Node.ctor 1 "B" 0).power ∧
    (Node.ctor 0 "A" (-2)).allies.length ≤ (Node.ctor 1 "B" 0).allies.length ∧
    (Node.ctor 0 "A" (-2)).calculate_vulnerability = 0 ∧
    (Node.ctor 1 "B" 0).calculate_vulnerability = 1 ∧
    ¬ (Node.ctor 1 "B" 0).calculate_vulnerability
        ≤ (Node.ctor 0 "A" (-2)).calculate_vulnerability := by
  refine ⟨by decide!, by decide!, by decide!, by decide!, by decide!⟩

/-- C12, amended. `calculate_vulnerability` is non-increasing in power and in the
number of allies as long as the two powers lie on the same side of -1: for
`p1 ≤ p2` with `-1 < p1` or `p2 < -1`, and `a1 ≤ a2` allies, the node with power
`p2` and `a2` allies is at most as vulnerable as the node with power `p1` and
`a1` allies. -/
theorem calculate_vulnerability_monotone (n1 n2 : Node)
    (hp : n1.power ≤ n2.power) (ha : n1.allies.length ≤ n2.allies.length)
    (hside : -1 < n1.power ∨ n2.power < -1) :
    n2.calculate_vulnerability ≤ n1.calculate_vulnerability := by
  simp only [Node.calculate_vulnerability]
  have hcast : (n1.allies.length : ℚ) ≤ (n2.allies.length : ℚ) := by exact_mod_cast ha
  rcases hside with h | h
  · apply max_le_max le_rfl
    have h1 : (0 : ℚ) < n1.power + 1.0 := by norm_num; linarith
    have h2 : n1.power + 1.0 ≤ n2.power + 1.0 := by linarith
    have hdiv : 1.0 / (n2.power + 1.0) ≤ 1.0 / (n1.power + 1.0) :=
      div_le_div_of_nonneg_left (by norm_num) h1 h2
    have hprot : (n1.allies.length : ℚ) * 0.1 ≤ (n2.allies.length : ℚ) * 0.1 :=
      mul_le_mul_of_nonneg_right hcast (by norm_num)
    linarith
  · have h2 : n2.power + 1.0 < 0 := by norm_num; linarith
    have hdiv : 1.0 / (n2.power + 1.0) < 0 := div_neg_of_pos_of_neg (by norm_num) h2
    have hprot : (0 : ℚ) ≤ (n2.allies.length : ℚ) * 0.1 :=
      mul_nonneg (Nat.cast_nonneg _) (by norm_num)
    have : max 0.0 (1.0 / (n2.power + 1.0) - (n2.allies.length : ℚ) * 0.1) = 0.0 :=
      max_eq_left (by linarith)
    rw [this]
    exact le_max_left _ _

/-- Witness for the amended C12: `Delta` (power 8, two allies) and `Beta`
(power 12, two allies) of the network of `main`. -/
theorem calculate_vulnerability_monotone_witness :
    main_delta.power ≤ main_beta.power ∧
    main_delta.allies.length ≤ main_beta.allies.length ∧
    (-1 < main_delta.power ∨ main_beta.power < -1) ∧
    main_beta.calculate_vulnerability ≤ main_delta.calculate_vulnerability :=
  ⟨by decide!, by decide!, Or.inl (by decide!),
    calculate_vulnerability_monotone main_delta main_beta (by decide!) (by decide!)
      (Or.inl (by decide!))⟩

/-- C13. For existing betrayer and target, the expected gain of the analysed
plan is `target.power * 0.6 - betrayer.loyalty * target.power * 0.3`, whatever the
betrayer's power; a betrayer of power 20 and loyalty 1.0 against a target of
power 10 gives 3.0. -/
theorem analyze_expected_gain (net : InfluenceNetwork) (betrayer target : Int)
    (uninit_cost : ℚ) (b t : Node)
    (hb : net.get_node betrayer = some b) (ht : net.get_node target = some t) :
    (BetrayalStrategy.analyze_betrayal_opportunity net betrayer target
        uninit_cost).expected_gain = t.power * 0.6 - b.loyalty * t.power * 0.3 ∧
    (gain_example.get_node 0).map Node.power = some 20 ∧
    (gain_example.get_node 0).map Node.loyalty = some 1.0 ∧
    (gain_example.get_node 1).map Node.power = some 10 ∧
    (BetrayalStrategy.analyze_betrayal_opportunity gain_example 0 1
        uninit_cost).expected_gain = 3.0 := by
  refine ⟨?_, by decide!, by decide!, by decide!, ?_⟩
  · rw [BetrayalStrategy.analyze_betrayal_opportunity_some net betrayer target uninit_cost
      b t hb ht]
    rfl
  · rw [BetrayalStrategy.analyze_betrayal_opportunity_some gain_example 0 1 uninit_cost
      (Node.ctor 0 "betrayer" 20) (Node.ctor 1 "target" 10) rfl rfl]
    show (Node.ctor 0 "betrayer" 20).calculate_betrayal_gain (Node.ctor 1 "target" 10).power
      = 3.0
    decide!

/-- Witness for C13: `Delta` against `Alpha` in the network of `main`. -/
theorem analyze_expected_gain_witness :
    main_network.get_node 3 = some main_delta ∧
    main_network.get_node 0 = some main_alpha ∧
    (BetrayalStrategy.analyze_betrayal_opportunity main_network 3 0 0).expected_gain
      = main_alpha.power * 0.6 - main_delta.loyalty * main_alpha.power * 0.3 :=
  ⟨by decide!, by decide!,
    (analyze_expected_gain main_network 3 0 0 main_delta main_alpha
      (by decide!) (by decide!)).1⟩

/-! ## remove_edge and propagate_influence -/

/-- C14. For every network and ids `s`, `t`, after `remove_edge(s, t)` the edge
list is the old one filtered, order kept, to the edges whose (source, target) is
not `(s, t)`; the edge count drops by exactly the number of matching edges; and
the node map (every node with its ally and subordinate lists) and the id counter
are as before. -/
theorem remove_edge_exact (net : InfluenceNetwork) (s t : Int) :
    (net.remove_edge s t).edges =
      net.edges.filter (fun e => decide (¬ (e.source_id = s ∧ e.target_id = t))) ∧
    (net.remove_edge s t).edges.length + net.edges.countP
        (fun e => decide (e.source_id = s ∧ e.target_id = t)) = net.edges.length ∧
    (∀ e : Edge, e ∈ (net.remove_edge s t).edges ↔
      e ∈ net.edges ∧ ¬ (e.source_id = s ∧ e.target_id = t)) ∧
    (net.remove_edge s t).nodes = net.nodes ∧
    (∀ id : Int, (net.remove_edge s t).get_node id = net.get_node id) ∧
    (net.remove_edge s t).next_node_id = net.next_node_id := by
  have hfilter : (net.remove_edge s t).edges =
      net.edges.filter (fun e => decide (¬ (e.source_id = s ∧ e.target_id = t))) := by
    rw [InfluenceNetwork.edges_remove_edge]
    apply List.filter_congr
    intro e _
    by_cases h1 : e.source_id = s <;> by_cases h2 : e.target_id = t <;> simp [h1, h2]
  refine ⟨hfilter, ?_, ?_, rfl, fun _ => rfl, rfl⟩
  · rw [hfilter]
    have h := List.length_eq_countP_add_countP
      (fun e : Edge => decide (e.source_id = s ∧ e.target_id = t)) net.edges
    rw [h, List.countP_eq_length_filter, List.countP_eq_length_filter]
    have hf : List.filter (fun e : Edge => decide (¬ (e.source_id = s ∧ e.target_id = t)))
        net.edges = List.filter (fun a : Edge =>
          decide ¬ (decide (a.source_id = s ∧ a.target_id = t)) = true) net.edges := by
      apply List.filter_congr
      intro e _
      simp
    rw [hf]
    omega
  · intro e
    rw [hfilter, List.mem_filter]
    simp only [decide_eq_true_eq]

/-- C15. For every source id and every amount below 0.01, zero and negative
amounts included, `propagate_influence` returns the network exactly as it was. -/
theorem propagate_influence_below_threshold (net : InfluenceNetwork) (source_id : Int)
    (amount : ℚ) (h : amount < 0.01) :
    net.propagate_influence source_id amount = net ∧
    ∀ id : Int, ((net.propagate_influence source_id amount).get_node id).map Node.power
      = (net.get_node id).map Node.power := by
  have heq : net.propagate_influence source_id amount = net := by
    unfold InfluenceNetwork.propagate_influence
    rw [InfluenceNetwork.propagate_power_recursive]
    simp [h]
  exact ⟨heq, fun id => by rw [heq]⟩

/-- Witness for C15: an amount of 0.005 from `Alpha` in the network of `main`. -/
theorem propagate_influence_below_threshold_witness :
    (0.005 : ℚ) < 0.01 ∧
    main_network.propagate_influence 0 0.005 = main_network ∧
    ∀ id : Int, ((main_network.propagate_influence 0 0.005).get_node id).map Node.power
      = (main_network.get_node id).map Node.power :=
  ⟨by norm_num, propagate_influence_below_threshold main_network 0 0.005 (by norm_num)⟩

/-! ## The recursion of propagate_influence -/

theorem InfluenceNetwork.edges_propagate_power_recursive (fuel : Nat)
    (net : InfluenceNetwork) (node_id : Int) (amount : ℚ) (visited : List Int)
    (depth : Nat) :
    (InfluenceNetwork.propagate_power_recursive fuel net node_id amount visited depth).1.edges
      = net.edges :=
  InfluenceNetwork.propagate_power_recursive_keeps (fun s => s.edges = net.edges)
    (fun _ _ _ h => h) fuel net node_id amount visited depth rfl

/-- One call of the recursion, past its guard, on an existing node. -/
theorem InfluenceNetwork.propagate_power_recursive_step (fuel : Nat)
    (net : InfluenceNetwork) (node_id : Int) (amount : ℚ) (visited : List Int)
    (depth : Nat) (nd : Node)
    (hg : ¬ (depth > 3 ∨ node_id ∈ visited ∨ amount < 0.01))
    (hn : net.get_node node_id = some nd) :
    InfluenceNetwork.propagate_power_recursive (fuel + 1) net node_id amount visited depth =
      ((net.modify_node node_id (fun n => n.modify_power amount)).get_edges_from
          node_id).foldl
        (fun st edge =>
          InfluenceNetwork.propagate_power_recursive fuel st.1 edge.target_id
            (amount * edge.calculate_influence_flow * 0.5) st.2 (depth + 1))
        (net.modify_node node_id (fun n => n.modify_power amount), node_id :: visited) := by
  rw [InfluenceNetwork.propagate_power_recursive, if_neg hg, hn]

/-- One call of the recursion, past its guard, on an id that names no node. -/
theorem InfluenceNetwork.propagate_power_recursive_absent (fuel : Nat)
    (net : InfluenceNetwork) (node_id : Int) (amount : ℚ) (visited : List Int)
    (depth : Nat)
    (hg : ¬ (depth > 3 ∨ node_id ∈ visited ∨ amount < 0.01))
    (hn : net.get_node node_id = none) :
    InfluenceNetwork.propagate_power_recursive (fuel + 1) net node_id amount visited depth =
      (net, node_id :: visited) := by
  rw [InfluenceNetwork.propagate_power_recursive, if_neg hg, hn]

/-- A call of the recursion stopped by its guard. -/
theorem InfluenceNetwork.propagate_power_recursive_stop (fuel : Nat)
    (net : InfluenceNetwork) (node_id : Int) (amount : ℚ) (visited : List Int)
    (depth : Nat)
    (hg : depth > 3 ∨ node_id ∈ visited ∨ amount < 0.01) :
    InfluenceNetwork.propagate_power_recursive fuel net node_id amount visited depth =
      (net, visited) := by
  cases fuel with
  | zero => rfl
  | succ fuel => rw [InfluenceNetwork.propagate_power_recursive, if_pos hg]

/-- A property of the threaded state kept by every step of a loop over edges is
kept by the loop. -/
theorem foldl_edges_keeps {σ : Type} (P : σ → Prop) (step : σ → Edge → σ) (Q : Edge → Prop)
    (hstep : ∀ st e, Q e → P st → P (step st e)) :
    ∀ (l : List Edge), (∀ e ∈ l, Q e) → ∀ st, P st → P (l.foldl step st) := by
  intro l
  induction l with
  | nil => intro _ st h; exact h
  | cons e rest ih =>
    intro hq st h
    rw [List.foldl_cons]
    exact ih (fun e' he' => hq e' (List.mem_cons_of_mem _ he')) _
      (hstep st e (hq e (List.mem_cons_self _ _)) h)

/-- An id already marked in `visited` stays marked and keeps its power through
any call of the recursion. -/
theorem InfluenceNetwork.propagate_power_recursive_visited (s : Int) :
    ∀ (fuel : Nat) (net : InfluenceNetwork) (node_id : Int) (amount : ℚ)
      (visited : List Int) (depth : Nat), s ∈ visited →
      s ∈ (InfluenceNetwork.propagate_power_recursive fuel net node_id amount visited depth).2 ∧
      ((InfluenceNetwork.propagate_power_recursive fuel net node_id amount visited
          depth).1.get_node s).map Node.power = (net.get_node s).map Node.power := by
  intro fuel
  induction fuel with
  | zero => intro net node_id amount visited depth h; exact ⟨h, rfl⟩
  | succ fuel ih =>
    intro net node_id amount visited depth h
    by_cases hg : depth > 3 ∨ node_id ∈ visited ∨ amount < 0.01
    · rw [InfluenceNetwork.propagate_power_recursive_stop _ _ _ _ _ _ hg]
      exact ⟨h, rfl⟩
    · have hne : s ≠ node_id := by
        intro e
        apply hg
        right; left
        rw [← e]; exact h
      cases hn : net.get_node node_id with
      | none =>
        rw [InfluenceNetwork.propagate_power_recursive_absent _ _ _ _ _ _ hg hn]
        exact ⟨List.mem_cons_of_mem _ h, rfl⟩
      | some nd =>
        rw [InfluenceNetwork.propagate_power_recursive_step _ _ _ _ _ _ nd hg hn]
        apply foldl_edges_keeps
          (fun st : InfluenceNetwork × List Int => s ∈ st.2 ∧
            (st.1.get_node s).map Node.power = (net.get_node s).map Node.power)
          _ (fun _ => True)
        · intro st e _ hst
          have h' := ih st.1 e.target_id (amount * e.calculate_influence_flow * 0.5) st.2
            (depth + 1) hst.1
          exact ⟨h'.1, h'.2.trans hst.2⟩
        · intro e _; trivial
        · refine ⟨List.mem_cons_of_mem _ h, ?_⟩
          show Option.map Node.power
            ((net.modify_node node_id fun n => n.modify_power amount).get_node s) = _
          rw [InfluenceNetwork.get_node_modify_node, if_neg hne]

/-- C17. For every network, cycles and self-loops included, every existing
source and every amount of at least 0.01, the source's power after
`propagate_influence` is its power before plus exactly that amount. -/
theorem propagate_influence_source_gain (net : InfluenceNetwork) (source_id : Int)
    (amount : ℚ) (n : Node)
    (hs : net.get_node source_id = some n) (ha : 0.01 ≤ amount) :
    ((net.propagate_influence source_id amount).get_node source_id).map Node.power
      = some (n.power + amount) := by
  have hg : ¬ ((0 : Nat) > 3 ∨ source_id ∈ ([] : List Int) ∨ amount < 0.01) := by
    intro h
    rcases h with h | h | h
    · omega
    · exact List.not_mem_nil _ h
    · exact absurd ha (not_le.mpr h)
  unfold InfluenceNetwork.propagate_influence
  rw [InfluenceNetwork.propagate_power_recursive_step 4 net source_id amount [] 0 n hg hs]
  have key := foldl_edges_keeps
    (fun st : InfluenceNetwork × List Int => source_id ∈ st.2 ∧
      (st.1.get_node source_id).map Node.power = some (n.power + amount))
    (fun st edge =>
      InfluenceNetwork.propagate_power_recursive 4 st.1 edge.target_id
        (amount * edge.calculate_influence_flow * 0.5) st.2 (0 + 1))
    (fun _ => True)
    (fun st e _ hst => by
      have h' := InfluenceNetwork.propagate_power_recursive_visited source_id 4 st.1
        e.target_id (amount * e.calculate_influence_flow * 0.5) st.2 (0 + 1) hst.1
      exact ⟨h'.1, h'.2.trans hst.2⟩)
    ((net.modify_node source_id (fun n => n.modify_power amount)).get_edges_from source_id)
    (fun _ _ => trivial)
    (net.modify_node source_id (fun n => n.modify_power amount), [source_id])
    ⟨List.mem_singleton_self _, by
      show Option.map Node.power
        ((net.modify_node source_id fun n => n.modify_power amount).get_node source_id) = _
      rw [InfluenceNetwork.get_node_modify_node, if_pos rfl, hs]
      rfl⟩
  exact key.2

/-- Witness for C17: an amount of 1 from `Alpha` in the network of `main`. -/
theorem propagate_influence_source_gain_witness :
    main_network.get_node 0 = some main_alpha ∧ (0.01 : ℚ) ≤ 1 ∧
    ((main_network.propagate_influence 0 1).get_node 0).map Node.power
      = some (main_alpha.power + 1) :=
  ⟨by decide!, by norm_num,
    propagate_influence_source_gain main_network 0 1 main_alpha (by decide!) (by norm_num)⟩

theorem reachable_within_self (edges : List Edge) (k : Nat) (s : Int) :
    reachable_within edges k s s = true := by
  cases k <;> simp [reachable_within]

/-- When `t` is not within `k + 1` edges of `s`, it is not within `k` edges of
the target of any edge leaving `s`. -/
theorem reachable_within_succ_false (edges : List Edge) (k : Nat) (s t : Int)
    (h : reachable_within edges (k + 1) s t = false) :
    ∀ e ∈ edges, e.source_id = s → reachable_within edges k e.target_id t = false := by
  intro e he hs
  rw [reachable_within, Bool.or_eq_false_iff, List.any_eq_false] at h
  have h2 := h.2 e he
  simpa [hs] using h2

/-- A node that is not within `3 - depth` edges of the node a call of the
recursion starts from keeps its power through that call. -/
theorem InfluenceNetwork.propagate_power_recursive_unreached (k : Int) :
    ∀ (fuel : Nat) (net : InfluenceNetwork) (node_id : Int) (amount : ℚ)
      (visited : List Int) (depth : Nat),
      (depth ≤ 3 → reachable_within net.edges (3 - depth) node_id k = false) →
      ((InfluenceNetwork.propagate_power_recursive fuel net node_id amount visited
          depth).1.get_node k).map Node.power = (net.get_node k).map Node.power := by
  intro fuel
  induction fuel with
  | zero => intro net node_id amount visited depth _; rfl
  | succ fuel ih =>
    intro net node_id amount visited depth h
    by_cases hg : depth > 3 ∨ node_id ∈ visited ∨ amount < 0.01
    · rw [InfluenceNetwork.propagate_power_recursive_stop _ _ _ _ _ _ hg]
    · have hd : depth ≤ 3 := by
        by_contra hd
        exact hg (Or.inl (by omega))
      have hfar := h hd
      have hne : k ≠ node_id := by
        intro e
        rw [e, reachable_within_self] at hfar
        exact Bool.noConfusion hfar
      cases hn : net.get_node node_id with
      | none => rw [InfluenceNetwork.propagate_power_recursive_absent _ _ _ _ _ _ hg hn]
      | some nd =>
        rw [InfluenceNetwork.propagate_power_recursive_step _ _ _ _ _ _ nd hg hn]
        have key := foldl_edges_keeps
          (fun st : InfluenceNetwork × List Int => st.1.edges = net.edges ∧
            (st.1.get_node k).map Node.power = (net.get_node k).map Node.power)
          (fun st edge =>
            InfluenceNetwork.propagate_power_recursive fuel st.1 edge.target_id
              (amount * edge.calculate_influence_flow * 0.5) st.2 (depth + 1))
          (fun e => e ∈ net.edges ∧ e.source_id = node_id)
          (fun st e he hst => by
            refine ⟨(InfluenceNetwork.edges_propagate_power_recursive _ _ _ _ _ _).trans
              hst.1, ?_⟩
            refine (ih st.1 e.target_id _ st.2 (depth + 1) ?_).trans hst.2
            intro hd1
            rw [hst.1]
            have h3 : 3 - depth = (3 - (depth + 1)) + 1 := by omega
            rw [h3] at hfar
            exact reachable_within_succ_false net.edges _ node_id k hfar e he.1 he.2)
          ((net.modify_node node_id (fun n => n.modify_power amount)).get_edges_from node_id)
          (fun e he => by
            unfold InfluenceNetwork.get_edges_from at he
            rw [List.mem_filter] at he
            exact ⟨he.1, by simpa using he.2⟩)
          (net.modify_node node_id (fun n => n.modify_power amount), node_id :: visited)
          ⟨rfl, by
            show Option.map Node.power
              ((net.modify_node node_id fun n => n.modify_power amount).get_node k) = _
            rw [InfluenceNetwork.get_node_modify_node, if_neg hne]⟩
        exact key.2

/-- C16. Every node whose power differs before and after `propagate_influence`
from `s` lies within 3 edges of `s` along the edge list; a node farther away, or
not reachable at all, keeps its power. -/
theorem propagate_influence_depth_bound (net : InfluenceNetwork) (source_id : Int)
    (amount : ℚ) (k : Int) :
    (((net.propagate_influence source_id amount).get_node k).map Node.power
        ≠ (net.get_node k).map Node.power →
      reachable_within net.edges 3 source_id k = true) ∧
    (reachable_within net.edges 3 source_id k = false →
      ((net.propagate_influence source_id amount).get_node k).map Node.power
        = (net.get_node k).map Node.power) := by
  have hfar : reachable_within net.edges 3 source_id k = false →
      ((net.propagate_influence source_id amount).get_node k).map Node.power
        = (net.get_node k).map Node.power := by
    intro h
    exact InfluenceNetwork.propagate_power_recursive_unreached k 5 net source_id amount [] 0
      (fun _ => h)
  refine ⟨?_, hfar⟩
  intro hdiff
  cases hr : reachable_within net.edges 3 source_id k with
  | true => rfl
  | false => exact absurd (hfar hr) hdiff

/-- Witness for C16: in the network of `main` no edge leaves `Zeta` (id 5), so a
propagation from `Zeta` leaves `Alpha` (id 0) at its power, while one from
`Alpha` changes `Zeta`, which is 3 edges away. -/
theorem propagate_influence_depth_bound_witness :
    reachable_within main_network.edges 3 5 0 = false ∧
    ((main_network.propagate_influence 5 1).get_node 0).map Node.power
      = (main_network.get_node 0).map Node.power ∧
    (((main_network.propagate_influence 0 1).get_node 5).map Node.power
        ≠ (main_network.get_node 5).map Node.power ∧
      reachable_within main_network.edges 3 0 5 = true) :=
  ⟨by decide!,
    (propagate_influence_depth_bound main_network 5 1 0).2 (by decide!),
    by decide!,
    (propagate_influence_depth_bound main_network 0 1 5).1 (by decide!)⟩

/-- Any property of the network kept by every power write of at least 0.01 is
kept by the whole recursive propagation: smaller amounts are never written. -/
theorem InfluenceNetwork.propagate_power_recursive_keeps_above
    (Inv : InfluenceNetwork → Prop)
    (hstep : ∀ s id a, ¬ a < 0.01 → Inv s →
      Inv (s.modify_node id (fun n => n.modify_power a))) :
    ∀ (fuel : Nat) (net : InfluenceNetwork) (node_id : Int) (amount : ℚ)
      (visited : List Int) (depth : Nat), Inv net →
      Inv (InfluenceNetwork.propagate_power_recursive fuel net node_id amount visited depth).1 := by
  intro fuel
  induction fuel with
  | zero => intro net node_id amount visited depth h; exact h
  | succ fuel ih =>
    intro net node_id amount visited depth h
    by_cases hg : depth > 3 ∨ node_id ∈ visited ∨ amount < 0.01
    · rw [InfluenceNetwork.propagate_power_recursive_stop _ _ _ _ _ _ hg]
      exact h
    · cases hn : net.get_node node_id with
      | none =>
        rw [InfluenceNetwork.propagate_power_recursive_absent _ _ _ _ _ _ hg hn]
        exact h
      | some nd =>
        rw [InfluenceNetwork.propagate_power_recursive_step _ _ _ _ _ _ nd hg hn]
        exact foldl_edges_keeps (fun st : InfluenceNetwork × List Int => Inv st.1) _
          (fun _ => True) (fun st e _ hst => ih _ _ _ _ _ hst) _ (fun _ _ => trivial) _
          (hstep _ _ _ (fun ha => hg (Or.inr (Or.inr ha))) h)

/-- C18, on the code. No propagation lowers any power: every node that exists
before `propagate_influence` exists afterwards with at least its old power.
For two agents of power 10 joined by a `CONFLICT` edge `0 → 1` of weight 1, whose
flow is -0.5, a propagation of 1.0 from agent 0 raises agent 0 to 11 and leaves
agent 1 at 10: the amount -0.25 meant for agent 1 is below the threshold 0.01
and is dropped. -/
theorem propagate_influence_never_reduces :
    (∀ (net : InfluenceNetwork) (source_id : Int) (amount : ℚ) (k : Int) (n : Node),
      net.get_node k = some n →
      ∃ n' : Node, (net.propagate_influence source_id amount).get_node k = some n' ∧
        n.power ≤ n'.power) ∧
    conflict_pair.edges = [Edge.ctor 0 1 EdgeType.CONFLICT 1.0] ∧
    (Edge.ctor 0 1 EdgeType.CONFLICT 1.0).calculate_influence_flow = -0.5 ∧
    (1.0 : ℚ) * (Edge.ctor 0 1 EdgeType.CONFLICT 1.0).calculate_influence_flow * 0.5 = -0.25 ∧
    (conflict_pair.get_node 1).map Node.power = some 10 ∧
    ((conflict_pair.propagate_influence 0 1.0).get_node 0).map Node.power = some 11 ∧
    ((conflict_pair.propagate_influence 0 1.0).get_node 1).map Node.power = some 10 := by
  refine ⟨?_, by decide!, by decide!, by decide!, by decide!, by decide!, by decide!⟩
  intro net source_id amount k n hn
  have h := InfluenceNetwork.propagate_power_recursive_keeps_above
    (fun s => ∃ n' : Node, s.get_node k = some n' ∧ n.power ≤ n'.power)
    (fun s id a ha hs => by
      obtain ⟨n', hn', hle⟩ := hs
      have ha0 : (0 : ℚ) ≤ a := by
        have : (0.01 : ℚ) ≤ a := not_lt.mp ha
        exact le_trans (by norm_num) this
      rw [InfluenceNetwork.get_node_modify_node]
      by_cases hk : k = id
      · subst hk
        rw [if_pos rfl, hn']
        refine ⟨n'.modify_power a, rfl, ?_⟩
        show n.power ≤ n'.power + a
        linarith
      · rw [if_neg hk]
        exact ⟨n', hn', hle⟩)
    5 net source_id amount [] 0 ⟨n, hn, le_rfl⟩
  exact h

/-! ## add_edge -/

theorem NodeMap.find_some_mem (m : NodeMap) (k : Int) (n : Node)
    (h : NodeMap.find m k = some n) : (k, n) ∈ m := by
  induction m with
  | nil => rw [NodeMap.find_nil] at h; exact Option.noConfusion h
  | cons kx rest ih =>
    obtain ⟨k0, x⟩ := kx
    rw [NodeMap.find_cons] at h
    by_cases h0 : k0 = k
    · rw [if_pos h0] at h
      have hx : x = n := Option.some.inj h
      rw [h0, hx]
      exact List.mem_cons_self _ _
    · rw [if_neg h0] at h
      exact List.mem_cons_of_mem _ (ih h)

theorem Node.add_ally_allies (n : Node) (x : Int) (h : n.allies.Nodup) :
    (n.add_ally x).allies.Nodup ∧ (n.add_ally x).allies.count x = 1 := by
  unfold Node.add_ally
  by_cases hx : x ∈ n.allies
  · rw [if_pos hx]
    exact ⟨h, List.count_eq_one_of_mem h hx⟩
  · rw [if_neg hx]
    refine ⟨?_, ?_⟩
    · show (n.allies ++ [x]).Nodup
      rw [List.nodup_append]
      refine ⟨h, List.nodup_singleton x, ?_⟩
      intro a ha hb
      rw [List.mem_singleton] at hb
      exact hx (hb ▸ ha)
    · show (n.allies ++ [x]).count x = 1
      rw [List.count_append, List.count_eq_zero_of_not_mem hx]
      simp

theorem Node.add_subordinate_subordinates (n : Node) (x : Int)
    (h : n.subordinates.Nodup) :
    (n.add_subordinate x).subordinates.Nodup ∧ (n.add_subordinate x).subordinates.count x = 1 := by
  unfold Node.add_subordinate
  by_cases hx : x ∈ n.subordinates
  · rw [if_pos hx]
    exact ⟨h, List.count_eq_one_of_mem h hx⟩
  · rw [if_neg hx]
    refine ⟨?_, ?_⟩
    · show (n.subordinates ++ [x]).Nodup
      rw [List.nodup_append]
      refine ⟨h, List.nodup_singleton x, ?_⟩
      intro a ha hb
      rw [List.mem_singleton] at hb
      exact hx (hb ▸ ha)
    · show (n.subordinates ++ [x]).count x = 1
      rw [List.count_append, List.count_eq_zero_of_not_mem hx]
      simp

/-- What `add_ally` leaves alone. -/
theorem Node.add_ally_frame (n : Node) (x : Int) :
    (n.add_ally x).power = n.power ∧ (n.add_ally x).loyalty = n.loyalty ∧
    (n.add_ally x).is_traitor = n.is_traitor ∧
    (n.add_ally x).subordinates = n.subordinates := by
  unfold Node.add_ally
  split_ifs <;> exact ⟨rfl, rfl, rfl, rfl⟩

/-- What `add_subordinate` leaves alone. -/
theorem Node.add_subordinate_frame (n : Node) (x : Int) :
    (n.add_subordinate x).power = n.power ∧ (n.add_subordinate x).loyalty = n.loyalty ∧
    (n.add_subordinate x).is_traitor = n.is_traitor ∧
    (n.add_subordinate x).allies = n.allies := by
  unfold Node.add_subordinate
  split_ifs <;> exact ⟨rfl, rfl, rfl, rfl⟩

theorem InfluenceNetwork.add_edge_alliance (net : InfluenceNetwork) (s t : Int) (w : ℚ)
    (sn tn : Node) (hs : net.get_node s = some sn) (ht : net.get_node t = some tn) :
    net.add_edge s t EdgeType.ALLIANCE w =
      (({ net with edges := net.edges ++ [Edge.ctor s t EdgeType.ALLIANCE w] } :
        InfluenceNetwork).modify_node s (fun n => n.add_ally t)).modify_node t
        (fun n => n.add_ally s) := by
  have hs1 : ({ net with edges := net.edges ++ [Edge.ctor s t EdgeType.ALLIANCE w] } :
      InfluenceNetwork).get_node s = some sn := hs
  have ht1 : ({ net with edges := net.edges ++ [Edge.ctor s t EdgeType.ALLIANCE w] } :
      InfluenceNetwork).get_node t = some tn := ht
  unfold InfluenceNetwork.add_edge
  simp only [hs1, ht1]

theorem InfluenceNetwork.add_edge_subordination (net : InfluenceNetwork) (s t : Int)
    (w : ℚ) (sn tn : Node) (hs : net.get_node s = some sn)
    (ht : net.get_node t = some tn) :
    net.add_edge s t EdgeType.SUBORDINATION w =
      ({ net with edges := net.edges ++ [Edge.ctor s t EdgeType.SUBORDINATION w] } :
        InfluenceNetwork).modify_node s (fun n => n.add_subordinate t) := by
  have hs1 : ({ net with edges := net.edges ++ [Edge.ctor s t EdgeType.SUBORDINATION w] } :
      InfluenceNetwork).get_node s = some sn := hs
  have ht1 : ({ net with edges := net.edges ++ [Edge.ctor s t EdgeType.SUBORDINATION w] } :
      InfluenceNetwork).get_node t = some tn := ht
  unfold InfluenceNetwork.add_edge
  simp only [hs1, ht1]

theorem InfluenceNetwork.add_edge_neutral (net : InfluenceNetwork) (s t : Int) (w : ℚ) :
    net.add_edge s t EdgeType.NEUTRAL w =
      { net with edges := net.edges ++ [Edge.ctor s t EdgeType.NEUTRAL w] } := by
  unfold InfluenceNetwork.add_edge
  simp only
  split <;> rfl

/-- With an endpoint missing `add_edge` stops after appending the edge. -/
theorem InfluenceNetwork.add_edge_missing (net : InfluenceNetwork) (s t : Int)
    (type : EdgeType) (w : ℚ)
    (h : net.get_node s = none ∨ net.get_node t = none) :
    net.add_edge s t type w =
      { net with edges := net.edges ++ [Edge.ctor s t type w] } := by
  have h1 : ({ net with edges := net.edges ++ [Edge.ctor s t type w] } :
      InfluenceNetwork).get_node s = none ∨
      ({ net with edges := net.edges ++ [Edge.ctor s t type w] } :
      InfluenceNetwork).get_node t = none := h
  unfold InfluenceNetwork.add_edge
  simp only
  rcases h1 with h1 | h1
  · rw [h1]
  · rw [h1]
    split <;> first | rfl | simp_all

/-- In every case `add_edge` appends exactly the new edge. -/
theorem InfluenceNetwork.edges_add_edge (net : InfluenceNetwork) (s t : Int)
    (type : EdgeType) (w : ℚ) :
    (net.add_edge s t type w).edges = net.edges ++ [Edge.ctor s t type w] := by
  unfold InfluenceNetwork.add_edge
  simp only
  split
  · split <;> rfl
  · rfl

/-- Whatever `add_ally` and `add_subordinate` leave alone is the same for every
node after `add_edge`. -/
theorem InfluenceNetwork.get_node_add_edge_frame {β : Type} (g : Node → β)
    (hally : ∀ n x, g (Node.add_ally n x) = g n)
    (hsub : ∀ n x, g (Node.add_subordinate n x) = g n)
    (net : InfluenceNetwork) (s t : Int) (type : EdgeType) (w : ℚ) (k : Int) :
    ((net.add_edge s t type w).get_node k).map g = (net.get_node k).map g := by
  unfold InfluenceNetwork.add_edge
  simp only
  split
  · split
    · rw [InfluenceNetwork.get_node_modify_node_frame g _ _ _ (fun n => hally n _),
        InfluenceNetwork.get_node_modify_node_frame g _ _ _ (fun n => hally n _)]
      rfl
    · rw [InfluenceNetwork.get_node_modify_node_frame g _ _ _ (fun n => hsub n _)]
      rfl
    · rfl
  · rfl

/-- C19, as stated, fails for a self-loop: `add_edge(0, 0, SUBORDINATION, 1.0)` on
a single agent, whose lists are empty, puts the id 0 into the subordinate list of
agent 0, so the subordinate list of the target `t = 0` does not stay unchanged. -/
theorem add_edge_self_subordination_changes_target :
    (single_agent.get_node 0).map Node.subordinates = some [] ∧
    InfluenceNetwork.lists_nodup single_agent ∧
    ((single_agent.add_edge 0 0 EdgeType.SUBORDINATION 1.0).get_node 0).map
        Node.subordinates = some [0] ∧
    ((single_agent.add_edge 0 0 EdgeType.SUBORDINATION 1.0).get_node 0).map
        Node.subordinates ≠ (single_agent.get_node 0).map Node.subordinates := by
  refine ⟨by decide!, ?_, by decide!, by decide!⟩
  unfold InfluenceNetwork.lists_nodup
  decide!

/-- C19, amended. For a network with duplicate-free relationship lists and an
`add_edge(s, t, type, w)` whose endpoints both exist: the edge
`(s, t, type, w, trust 0.8)` is appended to the edge list; power, loyalty and
traitor flag of every node are unchanged; for `ALLIANCE`, `t` is in `s`'s ally list
and `s` is in `t`'s ally list, each exactly once; for `SUBORDINATION`, `t` is in
`s`'s subordinate list exactly once, the ally lists of all nodes are unchanged
and, when `s ≠ t`, so is `t`'s subordinate list; for `CONFLICT` and `NEUTRAL` the
node map is unchanged. -/
theorem add_edge_existing_endpoints (net : InfluenceNetwork) (s t : Int)
    (type : EdgeType) (w : ℚ) (sn tn : Node)
    (hs : net.get_node s = some sn) (ht : net.get_node t = some tn)
    (hnd : InfluenceNetwork.lists_nodup net) :
    (net.add_edge s t type w).edges =
      net.edges ++ [{ source_id := s, target_id := t, type := type, weight := w,
                      trust_level := 0.8 }] ∧
    (∀ k : Int,
      ((net.add_edge s t type w).get_node k).map Node.power
        = (net.get_node k).map Node.power ∧
      ((net.add_edge s t type w).get_node k).map Node.loyalty
        = (net.get_node k).map Node.loyalty ∧
      ((net.add_edge s t type w).get_node k).map Node.is_traitor
        = (net.get_node k).map Node.is_traitor) ∧
    (type = EdgeType.ALLIANCE →
      ((net.add_edge s t type w).get_node s).map (fun n => n.allies.count t) = some 1 ∧
      ((net.add_edge s t type w).get_node t).map (fun n => n.allies.count s) = some 1) ∧
    (type = EdgeType.SUBORDINATION →
      ((net.add_edge s t type w).get_node s).map (fun n => n.subordinates.count t)
        = some 1 ∧
      (∀ k : Int, ((net.add_edge s t type w).get_node k).map Node.allies
        = (net.get_node k).map Node.allies) ∧
      (s ≠ t → ((net.add_edge s t type w).get_node t).map Node.subordinates
        = some tn.subordinates)) ∧
    (type = EdgeType.CONFLICT ∨ type = EdgeType.NEUTRAL →
      (net.add_edge s t type w).nodes = net.nodes) := by
  have hsn := hnd (s, sn) (NodeMap.find_some_mem net.nodes s sn hs)
  have htn := hnd (t, tn) (NodeMap.find_some_mem net.nodes t tn ht)
  refine ⟨InfluenceNetwork.edges_add_edge net s t type w, ?_, ?_, ?_, ?_⟩
  · intro k
    exact ⟨InfluenceNetwork.get_node_add_edge_frame Node.power
        (fun n x => (Node.add_ally_frame n x).1)
        (fun n x => (Node.add_subordinate_frame n x).1) net s t type w k,
      InfluenceNetwork.get_node_add_edge_frame Node.loyalty
        (fun n x => (Node.add_ally_frame n x).2.1)
        (fun n x => (Node.add_subordinate_frame n x).2.1) net s t type w k,
      InfluenceNetwork.get_node_add_edge_frame Node.is_traitor
        (fun n x => (Node.add_ally_frame n x).2.2.1)
        (fun n x => (Node.add_subordinate_frame n x).2.2.1) net s t type w k⟩
  · intro htype
    subst htype
    rw [InfluenceNetwork.add_edge_alliance net s t w sn tn hs ht]
    have hs1 : ({ net with edges := net.edges ++ [Edge.ctor s t EdgeType.ALLIANCE w] } :
        InfluenceNetwork).get_node s = some sn := hs
    have ht1 : ({ net with edges := net.edges ++ [Edge.ctor s t EdgeType.ALLIANCE w] } :
        InfluenceNetwork).get_node t = some tn := ht
    by_cases hst : s = t
    · subst hst
      have hsame : tn = sn := Option.some.inj (ht.symm.trans hs)
      have h1 := Node.add_ally_allies sn s hsn.1
      have h2 := Node.add_ally_allies (sn.add_ally s) s h1.1
      simp only [InfluenceNetwork.get_node_modify_node, if_true, hs1, Option.map_some',
        and_self]
      exact congrArg some h2.2
    · have hts : ¬ t = s := fun e => hst e.symm
      simp only [InfluenceNetwork.get_node_modify_node, if_true, if_neg hst, if_neg hts,
        hs1, ht1, Option.map_some']
      exact ⟨congrArg some (Node.add_ally_allies sn t hsn.1).2,
        congrArg some (Node.add_ally_allies tn s htn.1).2⟩
  · intro htype
    subst htype
    refine ⟨?_, ?_, ?_⟩
    · rw [InfluenceNetwork.add_edge_subordination net s t w sn tn hs ht]
      have hs1 : ({ net with edges := net.edges ++
          [Edge.ctor s t EdgeType.SUBORDINATION w] } : InfluenceNetwork).get_node s
          = some sn := hs
      simp only [InfluenceNetwork.get_node_modify_node, if_true, hs1, Option.map_some']
      exact congrArg some (Node.add_subordinate_subordinates sn t hsn.2).2
    · intro k
      rw [InfluenceNetwork.add_edge_subordination net s t w sn tn hs ht,
        InfluenceNetwork.get_node_modify_node_frame Node.allies _ _ _
          (fun n => (Node.add_subordinate_frame n t).2.2.2)]
      rfl
    · intro hst
      have hts : ¬ t = s := fun e => hst e.symm
      rw [InfluenceNetwork.add_edge_subordination net s t w sn tn hs ht]
      have ht1 : ({ net with edges := net.edges ++
          [Edge.ctor s t EdgeType.SUBORDINATION w] } : InfluenceNetwork).get_node t
          = some tn := ht
      simp only [InfluenceNetwork.get_node_modify_node, if_neg hts, ht1, Option.map_some']
  · intro htype
    rcases htype with h | h
    · subst h
      rw [InfluenceNetwork.add_edge_conflict]
    · subst h
      rw [InfluenceNetwork.add_edge_neutral]

/-- Witness for the amended C19: a new `ALLIANCE` edge from `Alpha` (id 0) to
`Delta` (id 3) in the network of `main`. -/
theorem add_edge_existing_endpoints_witness :
    main_network.get_node 0 = some main_alpha ∧
    main_network.get_node 3 = some main_delta ∧
    InfluenceNetwork.lists_nodup main_network ∧
    ((main_network.add_edge 0 3 EdgeType.ALLIANCE 1.0).get_node 0).map
        (fun n => n.allies.count 3) = some 1 ∧
    ((main_network.add_edge 0 3 EdgeType.ALLIANCE 1.0).get_node 3).map
        (fun n => n.allies.count 0) = some 1 :=
  ⟨by decide!, by decide!, by unfold InfluenceNetwork.lists_nodup; decide!,
    (add_edge_existing_endpoints main_network 0 3 EdgeType.ALLIANCE 1.0 main_alpha
      main_delta (by decide!) (by decide!)
      (by unfold InfluenceNetwork.lists_nodup; decide!)).2.2.1 rfl⟩

/-- C20, as stated, fails: `add_edge(0, 9, ALLIANCE, 1.0)` on the network of `main`,
where id 9 names no node, lengthens the edge list from 7 to 8 edges. -/
theorem add_edge_missing_endpoint_changes_edges :
    main_network.get_node 9 = none ∧
    main_network.edges.length = 7 ∧
    (main_network.add_edge 0 9 EdgeType.ALLIANCE 1.0).edges.length = 8 ∧
    main_network.add_edge 0 9 EdgeType.ALLIANCE 1.0 ≠ main_network := by
  refine ⟨by decide!, by decide!, by decide!, ?_⟩
  intro h
  have h1 := congrArg (fun n : InfluenceNetwork => n.edges.length) h
  revert h1
  decide!

/-- C20, amended. When `s` or `t` names no node, `add_edge(s, t, type, w)` leaves
the node map and the id counter unchanged and appends the edge
`(s, t, type, w, trust 0.8)` to the edge list. -/
theorem add_edge_missing_endpoint (net : InfluenceNetwork) (s t : Int)
    (type : EdgeType) (w : ℚ)
    (h : net.get_node s = none ∨ net.get_node t = none) :
    (net.add_edge s t type w).nodes = net.nodes ∧
    (∀ k : Int, (net.add_edge s t type w).get_node k = net.get_node k) ∧
    (net.add_edge s t type w).next_node_id = net.next_node_id ∧
    (net.add_edge s t type w).edges =
      net.edges ++ [{ source_id := s, target_id := t, type := type, weight := w,
                      trust_level := 0.8 }] := by
  rw [InfluenceNetwork.add_edge_missing net s t type w h]
  exact ⟨rfl, fun _ => rfl, rfl, rfl⟩

/-- Witness for the amended C20: an edge from `Alpha` to id 9, which names no
node of the network of `main`. -/
theorem add_edge_missing_endpoint_witness :
    (main_network.get_node 0 = none ∨ main_network.get_node 9 = none) ∧
    (main_network.add_edge 0 9 EdgeType.ALLIANCE 1.0).nodes = main_network.nodes ∧
    (∀ k : Int, (main_network.add_edge 0 9 EdgeType.ALLIANCE 1.0).get_node k
      = main_network.get_node k) ∧
    (main_network.add_edge 0 9 EdgeType.ALLIANCE 1.0).next_node_id
      = main_network.next_node_id ∧
    (main_network.add_edge 0 9 EdgeType.ALLIANCE 1.0).edges =
      main_network.edges ++ [{ source_id := 0, target_id := 9, type := EdgeType.ALLIANCE,
                               weight := 1.0, trust_level := 0.8 }] :=
  ⟨Or.inr (by decide!),
    add_edge_missing_endpoint main_network 0 9 EdgeType.ALLIANCE 1.0 (Or.inr (by decide!))⟩

/-! ## Cost and return on investment of a plan -/

theorem BetrayalStrategy.success_probability_bounds (net : InfluenceNetwork)
    (betrayer target : Int) (b t : Node)
    (hb : net.get_node betrayer = some b) (ht : net.get_node target = some t) :
    0.05 ≤ BetrayalStrategy.calculate_betrayal_success_probability net betrayer target ∧
    BetrayalStrategy.calculate_betrayal_success_probability net betrayer target ≤ 0.95 := by
  simp only [BetrayalStrategy.calculate_betrayal_success_probability, hb, ht]
  exact ⟨le_min (by norm_num) (le_max_left _ _), min_le_left _ _⟩

theorem BetrayalStrategy.identify_necessary_allies_length (net : InfluenceNetwork)
    (betrayer target : Int) :
    (BetrayalStrategy.identify_necessary_allies net betrayer target).length ≤ 2 := by
  unfold BetrayalStrategy.identify_necessary_allies
  split
  · split_ifs
    · rw [BetrayalStrategy.collect_allies_eq _ _ [] (by decide)]
      exact (List.length_take_le _ _)
    · exact Nat.zero_le _
  · exact Nat.zero_le _

/-- The cost of an analysed plan between existing nodes, with its bounds. -/
theorem BetrayalStrategy.total_cost_bounds (net : InfluenceNetwork)
    (betrayer target : Int) (uninit_cost : ℚ) (b t : Node)
    (hb : net.get_node betrayer = some b) (ht : net.get_node target = some t) :
    (BetrayalStrategy.analyze_betrayal_opportunity net betrayer target
        uninit_cost).total_cost =
      2.0 + 1.5 * ((BetrayalStrategy.analyze_betrayal_opportunity net betrayer target
          uninit_cost).required_allies.length : ℚ)
        + 5.0 * (1 - (BetrayalStrategy.analyze_betrayal_opportunity net betrayer target
          uninit_cost).success_probability) ∧
    2.25 ≤ (BetrayalStrategy.analyze_betrayal_opportunity net betrayer target
        uninit_cost).total_cost ∧
    (BetrayalStrategy.analyze_betrayal_opportunity net betrayer target
        uninit_cost).total_cost ≤ 9.75 := by
  rw [BetrayalStrategy.analyze_betrayal_opportunity_some net betrayer target uninit_cost
    b t hb ht]
  simp only
  have hp := BetrayalStrategy.success_probability_bounds net betrayer target b t hb ht
  have hl := BetrayalStrategy.identify_necessary_allies_length net betrayer target
  have hl' : ((BetrayalStrategy.identify_necessary_allies net betrayer target).length : ℚ)
      ≤ 2 := by exact_mod_cast hl
  have hl0 : (0 : ℚ) ≤
      ((BetrayalStrategy.identify_necessary_allies net betrayer target).length : ℚ) :=
    Nat.cast_nonneg _
  norm_num at hp ⊢
  refine ⟨by ring, ?_, ?_⟩
  · linarith [hp.1, hp.2]
  · linarith [hp.1, hp.2]

/-- Every plan returned by `find_optimal_betrayals` is the analysis of the
betrayer, who exists, against an existing node, and passes both thresholds. -/
theorem BetrayalStrategy.find_optimal_betrayals_mem (net : InfluenceNetwork)
    (betrayer_id : Int) (top_n : Int) (uninit_cost : ℚ) (p : BetrayalPlan)
    (hp : p ∈ BetrayalStrategy.find_optimal_betrayals net betrayer_id top_n uninit_cost) :
    ∃ (b t : Node) (target : Int), net.get_node betrayer_id = some b ∧
      net.get_node target = some t ∧ target ≠ betrayer_id ∧
      p = BetrayalStrategy.analyze_betrayal_opportunity net betrayer_id target uninit_cost ∧
      p.expected_gain > 0 ∧ p.success_probability > 0.3 := by
  have hsub := BetrayalStrategy.find_optimal_betrayals_sublist net betrayer_id top_n
    uninit_cost
  have hperm := std_sort_perm (fun a b : BetrayalPlan =>
    decide (a.calculate_roi > b.calculate_roi))
    (BetrayalStrategy.candidate_plans net betrayer_id uninit_cost)
  cases hb : net.get_node betrayer_id with
  | none =>
    unfold BetrayalStrategy.find_optimal_betrayals at hp
    rw [hb] at hp
    exact absurd hp (List.not_mem_nil _)
  | some b =>
    have hp1 := hperm.subset (hsub.subset hp)
    rw [BetrayalStrategy.candidate_plans_eq, List.mem_map] at hp1
    obtain ⟨k, hk, hkp⟩ := hp1
    rw [List.mem_filter] at hk
    obtain ⟨hkeys, hpass⟩ := hk
    simp only [Bool.and_eq_true, decide_eq_true_eq] at hpass
    have hex : NodeMap.find net.nodes k ≠ none :=
      (NodeMap.find_ne_none_iff net.nodes k).mpr hkeys
    cases ht : net.get_node k with
    | none => exact absurd ht hex
    | some t =>
      refine ⟨b, t, k, rfl, ht, hpass.1, hkp.symm, ?_, ?_⟩
      · rw [← hkp]; exact hpass.2.1
      · rw [← hkp]; exact hpass.2.2

/-- C27. For existing betrayer and target the analysed plan has
`total_cost = 2.0 + 1.5 * |required_allies| + 5.0 * (1 - success_probability)`, a
value between 2.25 and 9.75, so the divisor `total_cost + 0.1` of the ROI is at
least 2.35 and the ROI has the sign of the expected gain; every plan returned by
`find_optimal_betrayals` has a positive ROI. -/
theorem analyze_total_cost_and_roi (net : InfluenceNetwork) (betrayer target : Int)
    (uninit_cost : ℚ) (b t : Node)
    (hb : net.get_node betrayer = some b) (ht : net.get_node target = some t) :
    ((BetrayalStrategy.analyze_betrayal_opportunity net betrayer target
        uninit_cost).total_cost =
      2.0 + 1.5 * ((BetrayalStrategy.analyze_betrayal_opportunity net betrayer target
          uninit_cost).required_allies.length : ℚ)
        + 5.0 * (1 - (BetrayalStrategy.analyze_betrayal_opportunity net betrayer target
          uninit_cost).success_probability) ∧
    2.25 ≤ (BetrayalStrategy.analyze_betrayal_opportunity net betrayer target
        uninit_cost).total_cost ∧
    (BetrayalStrategy.analyze_betrayal_opportunity net betrayer target
        uninit_cost).total_cost ≤ 9.75 ∧
    2.35 ≤ (BetrayalStrategy.analyze_betrayal_opportunity net betrayer target
        uninit_cost).total_cost + 0.1) ∧
    ((0 < (BetrayalStrategy.analyze_betrayal_opportunity net betrayer target
          uninit_cost).calculate_roi ↔
        0 < (BetrayalStrategy.analyze_betrayal_opportunity net betrayer target
          uninit_cost).expected_gain) ∧
      ((BetrayalStrategy.analyze_betrayal_opportunity net betrayer target
          uninit_cost).calculate_roi = 0 ↔
        (BetrayalStrategy.analyze_betrayal_opportunity net betrayer target
          uninit_cost).expected_gain = 0) ∧
      ((BetrayalStrategy.analyze_betrayal_opportunity net betrayer target
          uninit_cost).calculate_roi < 0 ↔
        (BetrayalStrategy.analyze_betrayal_opportunity net betrayer target
          uninit_cost).expected_gain < 0)) ∧
    (∀ (top_n : Int),
      ∀ p ∈ BetrayalStrategy.find_optimal_betrayals net betrayer top_n uninit_cost,
        0 < p.calculate_roi) := by
  have hsign : ∀ q : BetrayalPlan, 2.25 ≤ q.total_cost →
      (0 < q.calculate_roi ↔ 0 < q.expected_gain) ∧
      (q.calculate_roi = 0 ↔ q.expected_gain = 0) ∧
      (q.calculate_roi < 0 ↔ q.expected_gain < 0) := by
    intro q hq
    have hd : (0 : ℚ) < q.total_cost + 0.1 := by norm_num at hq ⊢; linarith
    unfold BetrayalPlan.calculate_roi
    refine ⟨?_, ?_, ?_⟩
    · rw [div_pos_iff_of_pos_right hd]
    · rw [div_eq_zero_iff]
      constructor
      · intro h
        rcases h with h | h
        · exact h
        · exact absurd h (ne_of_gt hd)
      · intro h; exact Or.inl h
    · rw [div_neg_iff]
      constructor
      · intro h
        rcases h with h | h
        · exact absurd h.2 (not_lt.mpr (le_of_lt hd))
        · exact h.1
      · intro h; exact Or.inr ⟨h, hd⟩
  have hcost := BetrayalStrategy.total_cost_bounds net betrayer target uninit_cost b t hb ht
  refine ⟨⟨hcost.1, hcost.2.1, hcost.2.2, ?_⟩, hsign _ hcost.2.1, ?_⟩
  · have := hcost.2.1
    norm_num at this ⊢
    linarith
  · intro top_n p hp
    obtain ⟨b', t', k, hb', ht', _, hpk, hgain, _⟩ :=
      BetrayalStrategy.find_optimal_betrayals_mem net betrayer top_n uninit_cost p hp
    have hc := (BetrayalStrategy.total_cost_bounds net betrayer k uninit_cost b' t' hb'
      ht').2.1
    rw [← hpk] at hc
    exact ((hsign p hc).1).mpr hgain

/-- Witness for C27: `Delta` against `Alpha` in the network of `main`, whose plan
costs 31/4. -/
theorem analyze_total_cost_and_roi_witness :
    main_network.get_node 3 = some main_delta ∧
    main_network.get_node 0 = some main_alpha ∧
    (BetrayalStrategy.analyze_betrayal_opportunity main_network 3 0 0).total_cost = 31 / 4 ∧
    2.35 ≤ (BetrayalStrategy.analyze_betrayal_opportunity main_network 3 0 0).total_cost
      + 0.1 ∧
    ∀ (top_n : Int),
      ∀ p ∈ BetrayalStrategy.find_optimal_betrayals main_network 3 top_n 0,
        0 < p.calculate_roi :=
  ⟨by decide!, by decide!, by decide!,
    (analyze_total_cost_and_roi main_network 3 0 0 main_delta main_alpha
      (by decide!) (by decide!)).1.2.2.2,
    (analyze_total_cost_and_roi main_network 3 0 0 main_delta main_alpha
      (by decide!) (by decide!)).2.2⟩

/-! ## The allies required by a plan -/

/-- With betrayer and target present, `execute_betrayal` lowers the loyalty of
every node by 0.4 when it is the target and by 0.2 for each occurrence of its id
among the required allies. -/
theorem BetrayalStrategy.loyalty_execute_betrayal (net : InfluenceNetwork)
    (plan : BetrayalPlan) (b t : Node)
    (hb : net.get_node plan.betrayer_id = some b)
    (ht : net.get_node plan.target_id = some t) (id : Int) (n : Node)
    (hn : net.get_node id = some n) :
    ((BetrayalStrategy.execute_betrayal net plan).get_node id).map Node.loyalty =
      some (n.loyalty - (if id = plan.target_id then 0.4 else 0)
        - 0.2 * (plan.required_allies.count id : ℚ)) := by
  have hsome := BetrayalStrategy.execute_betrayal_before_propagate_some net plan b t hb ht
  unfold BetrayalStrategy.execute_betrayal
  rw [hsome]
  simp only
  rw [InfluenceNetwork.get_node_propagate_influence_frame Node.loyalty (fun _ _ => rfl),
    InfluenceNetwork.get_node_add_edge_conflict, InfluenceNetwork.get_node_remove_edge,
    BetrayalStrategy.loyalty_penalize_allies]
  by_cases hit : id = plan.target_id
  · by_cases hib : id = plan.betrayer_id
    · simp only [InfluenceNetwork.get_node_modify_node, hn, ← hit, ← hib, if_true,
        Option.map_some', Node.modify_power, Node.mark_as_traitor, Node.modify_loyalty]
      congr 1
      ring
    · have hbi : ¬ plan.target_id = plan.betrayer_id := fun e => hib (hit.trans e)
      rw [hit] at hn ⊢
      simp only [InfluenceNetwork.get_node_modify_node, hn, hbi, if_true, if_false,
        Option.map_some', Node.modify_power, Node.mark_as_traitor, Node.modify_loyalty]
      congr 1
      ring
  · by_cases hib : id = plan.betrayer_id
    · have hbt : ¬ plan.betrayer_id = plan.target_id := fun e => hit (hib.trans e)
      rw [hib] at hn ⊢
      simp only [InfluenceNetwork.get_node_modify_node, hn, hbt, if_true, if_false,
        Option.map_some', Node.modify_power, Node.mark_as_traitor, Node.modify_loyalty]
      congr 1
      ring
    · simp only [InfluenceNetwork.get_node_modify_node, hn, hit, hib, if_false,
        Option.map_some']
      congr 1
      ring

/-- C26, as stated, fails: for `A` (power 4) allied with `B` (power 10), the plan
of `A` against `B` requires `B` itself, and executing it lowers the loyalty of `B`
from 1 to 2/5, that is by 0.6 and not by 0.4. -/
theorem required_allies_can_hold_target :
    (allied_pair.get_node 0).map Node.power = some 4 ∧
    (allied_pair.get_node 1).map Node.power = some 10 ∧
    a_betrays_ally.betrayer_id = 0 ∧ a_betrays_ally.target_id = 1 ∧
    a_betrays_ally.required_allies = [1] ∧
    a_betrays_ally.target_id ∈ a_betrays_ally.required_allies ∧
    (allied_pair.get_node 1).map Node.loyalty = some 1 ∧
    ((BetrayalStrategy.execute_betrayal allied_pair a_betrays_ally).get_node 1).map
      Node.loyalty = some (2 / 5) := by
  refine ⟨by decide!, by decide!, by decide!, by decide!, by decide!, by decide!,
    by decide!, by decide!⟩

/-- C26, amended. For existing betrayer `b` and target `t`, every required ally of
the analysed plan is an id of `b`'s ally list that names an existing node of power
above 5.0; so when `t` is not in `b`'s ally list the plan does not require `t`, and
executing it lowers the loyalty of `t` by exactly 0.4; and when `b` is not in its
own ally list the plan does not require `b`. -/
theorem required_allies_from_ally_list (net : InfluenceNetwork) (betrayer target : Int)
    (uninit_cost : ℚ) (b t : Node)
    (hb : net.get_node betrayer = some b) (ht : net.get_node target = some t) :
    (∀ a ∈ (BetrayalStrategy.analyze_betrayal_opportunity net betrayer target
        uninit_cost).required_allies,
      a ∈ b.allies ∧ ∃ n : Node, net.get_node a = some n ∧ n.power > 5.0) ∧
    (target ∉ b.allies →
      target ∉ (BetrayalStrategy.analyze_betrayal_opportunity net betrayer target
        uninit_cost).required_allies ∧
      ((BetrayalStrategy.execute_betrayal net
        (BetrayalStrategy.analyze_betrayal_opportunity net betrayer target
          uninit_cost)).get_node target).map Node.loyalty = some (t.loyalty - 0.4)) ∧
    (betrayer ∉ b.allies →
      betrayer ∉ (BetrayalStrategy.analyze_betrayal_opportunity net betrayer target
        uninit_cost).required_allies) := by
  have hmem : ∀ a ∈ (BetrayalStrategy.analyze_betrayal_opportunity net betrayer target
        uninit_cost).required_allies,
      a ∈ b.allies ∧ ∃ n : Node, net.get_node a = some n ∧ n.power > 5.0 := by
    intro a ha
    rw [BetrayalStrategy.analyze_betrayal_opportunity_some net betrayer target uninit_cost
      b t hb ht] at ha
    simp only [BetrayalStrategy.identify_necessary_allies, hb, ht] at ha
    split_ifs at ha with hgap
    · rw [BetrayalStrategy.collect_allies_eq net b.allies [] (by decide)] at ha
      have ha' := List.mem_of_mem_take ha
      rw [List.nil_append, List.mem_filter] at ha'
      refine ⟨ha'.1, ?_⟩
      cases hn : net.get_node a with
      | none => rw [hn] at ha'; exact absurd ha'.2 (by simp)
      | some n =>
        rw [hn] at ha'
        exact ⟨n, rfl, by simpa using ha'.2⟩
    · exact absurd ha (List.not_mem_nil _)
  refine ⟨hmem, ?_, ?_⟩
  · intro hnot
    have hnotreq : target ∉ (BetrayalStrategy.analyze_betrayal_opportunity net betrayer
        target uninit_cost).required_allies := fun h => hnot (hmem target h).1
    refine ⟨hnotreq, ?_⟩
    have hpb : (BetrayalStrategy.analyze_betrayal_opportunity net betrayer target
        uninit_cost).betrayer_id = betrayer := by
      rw [BetrayalStrategy.analyze_betrayal_opportunity_some net betrayer target uninit_cost
        b t hb ht]
    have hpt := BetrayalStrategy.analyze_betrayal_opportunity_target_id net betrayer target
      uninit_cost
    rw [BetrayalStrategy.loyalty_execute_betrayal net _ b t (by rw [hpb]; exact hb)
      (by rw [hpt]; exact ht) target t ht, hpt, if_pos rfl,
      List.count_eq_zero_of_not_mem hnotreq]
    congr 1
    norm_num
  · intro hnot h
    exact hnot (hmem betrayer h).1

/-- Witness for the amended C26: `Delta` against `Alpha` in the network of `main`;
`Alpha` is not an ally of `Delta`. -/
theorem required_allies_from_ally_list_witness :
    main_network.get_node 3 = some main_delta ∧
    main_network.get_node 0 = some main_alpha ∧
    (0 : Int) ∉ main_delta.allies ∧
    (0 : Int) ∉ (BetrayalStrategy.analyze_betrayal_opportunity main_network 3 0
        0).required_allies ∧
    ((BetrayalStrategy.execute_betrayal main_network
        (BetrayalStrategy.analyze_betrayal_opportunity main_network 3 0 0)).get_node
        0).map Node.loyalty = some (main_alpha.loyalty - 0.4) :=
  ⟨by decide!, by decide!, by decide!,
    (required_allies_from_ally_list main_network 3 0 0 main_delta main_alpha
      (by decide!) (by decide!)).2.1 (by decide!)⟩

/-! ## find_vulnerable_targets -/

/-- Sorting with the comparator `key(a) > key(b)` leaves the elements in
non-increasing order of `key`. -/
theorem std_sort_sorted_by {α : Type} (key : α → ℚ) (l : List α) :
    List.Pairwise (fun a b => key a ≥ key b)
      (std_sort (fun a b => decide (key a > key b)) l) := by
  haveI : IsTotal α (fun a b => (fun a b => decide (key a > key b)) b a = false) :=
    ⟨fun a b => by
      simp only [decide_eq_false_iff_not, not_lt]
      exact le_total _ _⟩
  haveI : IsTrans α (fun a b => (fun a b => decide (key a > key b)) b a = false) :=
    ⟨fun a b c hab hbc => by
      simp only [decide_eq_false_iff_not, not_lt] at hab hbc ⊢
      exact le_trans hbc hab⟩
  have h := List.sorted_insertionSort
    (fun a b => (fun a b => decide (key a > key b)) b a = false) l
  unfold std_sort
  refine List.Pairwise.imp ?_ h
  intro a b hab
  simp only [decide_eq_false_iff_not, not_lt] at hab
  exact hab

theorem NodeMap.find_of_mem_ordered (m : NodeMap) (h : NodeMap.ordered m) (k : Int)
    (n : Node) (hmem : (k, n) ∈ m) : NodeMap.find m k = some n := by
  induction m with
  | nil => exact absurd hmem (List.not_mem_nil _)
  | cons kx rest ih =>
    obtain ⟨k0, x⟩ := kx
    unfold NodeMap.ordered at h
    rw [List.pairwise_cons] at h
    rw [NodeMap.find_cons]
    rcases List.mem_cons.mp hmem with he | he
    · have h1 : k = k0 := congrArg Prod.fst he
      have h2 : n = x := congrArg Prod.snd he
      rw [if_pos h1.symm, h2]
    · have hlt : k0 < k := h.1 (k, n) he
      rw [if_neg (ne_of_lt hlt)]
      exact ih h.2 he

/-- The loop of `find_vulnerable_targets` keeps, in key order, the entries whose
vulnerability exceeds 0.3, each with that vulnerability. -/
theorem InfluenceNetwork.vulnerabilities_eq (net : InfluenceNetwork) :
    net.vulnerabilities =
      (net.nodes.filter (fun kn => decide (kn.2.calculate_vulnerability > 0.3))).map
        (fun kn => (kn.1, kn.2.calculate_vulnerability)) := by
  unfold InfluenceNetwork.vulnerabilities
  have key : ∀ (l : NodeMap) (acc : List (Int × ℚ)),
      l.foldl (fun vulnerabilities pair =>
        let vuln := pair.2.calculate_vulnerability
        if vuln > 0.3 then vulnerabilities ++ [(pair.1, vuln)] else vulnerabilities) acc =
      acc ++ (l.filter (fun kn => decide (kn.2.calculate_vulnerability > 0.3))).map
        (fun kn => (kn.1, kn.2.calculate_vulnerability)) := by
    intro l
    induction l with
    | nil => intro acc; simp
    | cons kn rest ih =>
      intro acc
      rw [List.foldl_cons, ih]
      by_cases hv : kn.2.calculate_vulnerability > 0.3
      · simp [hv, List.filter_cons]
      · simp [hv, List.filter_cons]
  simpa using key net.nodes []

/-- C22. For a network whose node map has ascending keys, `find_vulnerable_targets`
returns no id twice, returns an id exactly when it names a node whose
vulnerability is strictly above 0.3, and lists the ids by non-increasing
vulnerability. -/
theorem find_vulnerable_targets_exact (net : InfluenceNetwork)
    (hord : NodeMap.ordered net.nodes) :
    net.find_vulnerable_targets.Nodup ∧
    (∀ id : Int, id ∈ net.find_vulnerable_targets ↔
      ∃ n : Node, net.get_node id = some n ∧ n.calculate_vulnerability > 0.3) ∧
    List.Pairwise
      (fun a b => ∀ na nb : Node, net.get_node a = some na → net.get_node b = some nb →
        na.calculate_vulnerability ≥ nb.calculate_vulnerability)
      net.find_vulnerable_targets := by
  have hperm := std_sort_perm (fun a b : Int × ℚ => decide (a.2 > b.2)) net.vulnerabilities
  have hsorted := std_sort_sorted_by (fun a : Int × ℚ => a.2) net.vulnerabilities
  have hentry : ∀ p ∈ net.vulnerabilities, ∃ n : Node,
      net.get_node p.1 = some n ∧ p.2 = n.calculate_vulnerability ∧
      n.calculate_vulnerability > 0.3 := by
    intro p hp
    rw [InfluenceNetwork.vulnerabilities_eq, List.mem_map] at hp
    obtain ⟨kn, hkn, hp⟩ := hp
    rw [List.mem_filter] at hkn
    refine ⟨kn.2, ?_, ?_, by simpa using hkn.2⟩
    · rw [← hp]
      exact NodeMap.find_of_mem_ordered net.nodes hord kn.1 kn.2 hkn.1
    · rw [← hp]
  have hkeys : net.vulnerabilities.map Prod.fst =
      (net.nodes.filter (fun kn => decide (kn.2.calculate_vulnerability > 0.3))).map
        Prod.fst := by
    rw [InfluenceNetwork.vulnerabilities_eq, List.map_map]
    rfl
  refine ⟨?_, ?_, ?_⟩
  · unfold InfluenceNetwork.find_vulnerable_targets
    rw [(hperm.map Prod.fst).nodup_iff, hkeys]
    exact ((NodeMap.ordered_nodup_keys net.nodes hord).sublist
      ((List.filter_sublist _).map Prod.fst))
  · intro id
    unfold InfluenceNetwork.find_vulnerable_targets
    rw [(hperm.map Prod.fst).mem_iff, List.mem_map]
    constructor
    · rintro ⟨p, hp, hpid⟩
      obtain ⟨n, hn, _, hv⟩ := hentry p hp
      exact ⟨n, hpid ▸ hn, hv⟩
    · rintro ⟨n, hn, hv⟩
      refine ⟨(id, n.calculate_vulnerability), ?_, rfl⟩
      rw [InfluenceNetwork.vulnerabilities_eq, List.mem_map]
      refine ⟨(id, n), ?_, rfl⟩
      rw [List.mem_filter]
      exact ⟨NodeMap.find_some_mem net.nodes id n hn, by simpa using hv⟩
  · unfold InfluenceNetwork.find_vulnerable_targets
    rw [List.pairwise_map]
    refine List.Pairwise.imp_of_mem ?_ hsorted
    intro p q hp hq hpq na nb hna hnb
    obtain ⟨n1, hn1, hv1, _⟩ := hentry p (hperm.subset hp)
    obtain ⟨n2, hn2, hv2, _⟩ := hentry q (hperm.subset hq)
    have e1 : na = n1 := Option.some.inj (hna.symm.trans hn1)
    have e2 : nb = n2 := Option.some.inj (hnb.symm.trans hn2)
    rw [e1, e2, ← hv1, ← hv2]
    exact hpq

/-- Witness for C22: of the agents `A` (power 1), `B` (power 0.5), `C` (power 2)
and `D` (power 9), the first three are vulnerable and listed as `B`, `A`, `C`. -/
theorem find_vulnerable_targets_exact_witness :
    NodeMap.ordered weak_agents.nodes ∧
    weak_agents.find_vulnerable_targets = [1, 0, 2] ∧
    weak_agents.find_vulnerable_targets.Nodup ∧
    (3 ∈ weak_agents.find_vulnerable_targets ↔
      ∃ n : Node, weak_agents.get_node 3 = some n ∧ n.calculate_vulnerability > 0.3) :=
  ⟨by unfold NodeMap.ordered; decide, by decide!,
    (find_vulnerable_targets_exact weak_agents (by unfold NodeMap.ordered; decide)).1,
    (find_vulnerable_targets_exact weak_agents (by unfold NodeMap.ordered; decide)).2.1 3⟩

/-! ## Divisors -/

/-- C23, as stated, fails: an agent created with power -1 makes the divisor
`power + 1.0` of `calculate_vulnerability`, and of the success probability when
that agent is the target, equal to 0; and for a single agent created with power
0 the total network power, by which `calculate_network_control` divides, is 0. -/
theorem divisors_can_be_zero :
    (agent_power_minus_one.get_node 0).map Node.power = some (-1) ∧
    (agent_power_minus_one.get_node 0).map (fun n => n.power + 1.0) = some 0 ∧
    (agent_power_zero.get_node 0).map Node.power = some 0 ∧
    agent_power_zero.calculate_total_network_power = 0 := by
  refine ⟨by decide!, by decide!, by decide!, by decide!⟩

/-- C23, amended. The additive constants keep the divisors away from zero as long
as no power equals -1: for every node of power other than -1 the divisor
`power + 1.0` of `calculate_vulnerability` is not zero, for existing betrayer and
target with target power other than -1 the divisor `target.power + 1.0` of the
success probability is not zero, and the divisor `total_cost + 0.1` of the ROI of
the analysed plan is at least 2.35, hence not zero. -/
theorem divisors_nonzero (net : InfluenceNetwork) (betrayer target : Int)
    (uninit_cost : ℚ) (b t : Node)
    (hb : net.get_node betrayer = some b) (ht : net.get_node target = some t) :
    (∀ n : Node,
      n.calculate_vulnerability
        = max 0.0 (1.0 / (n.power + 1.0) - (n.allies.length : ℚ) * 0.1) ∧
      (n.power ≠ -1 → n.power + 1.0 ≠ 0)) ∧
    (BetrayalStrategy.calculate_betrayal_success_probability net betrayer target =
        min 0.95 (max 0.05 (b.power / (t.power + 1.0) * 0.5
          + (b.allies.length : ℚ) * 0.1 + t.calculate_vulnerability * 0.3)) ∧
      (t.power ≠ -1 → t.power + 1.0 ≠ 0)) ∧
    ((BetrayalStrategy.analyze_betrayal_opportunity net betrayer target
          uninit_cost).calculate_roi =
        (BetrayalStrategy.analyze_betrayal_opportunity net betrayer target
          uninit_cost).expected_gain /
        ((BetrayalStrategy.analyze_betrayal_opportunity net betrayer target
          uninit_cost).total_cost + 0.1) ∧
      2.35 ≤ (BetrayalStrategy.analyze_betrayal_opportunity net betrayer target
          uninit_cost).total_cost + 0.1 ∧
      (BetrayalStrategy.analyze_betrayal_opportunity net betrayer target
          uninit_cost).total_cost + 0.1 ≠ 0) := by
  have hdiv : ∀ p : ℚ, p ≠ -1 → p + 1.0 ≠ 0 := by
    intro p hp h
    apply hp
    norm_num at h
    linarith
  have hcost := (BetrayalStrategy.total_cost_bounds net betrayer target uninit_cost b t
    hb ht).2.1
  have h235 : 2.35 ≤ (BetrayalStrategy.analyze_betrayal_opportunity net betrayer target
      uninit_cost).total_cost + 0.1 := by
    norm_num at hcost ⊢
    linarith
  refine ⟨fun n => ⟨rfl, hdiv n.power⟩, ⟨?_, hdiv t.power⟩, rfl, h235, ?_⟩
  · simp only [BetrayalStrategy.calculate_betrayal_success_probability, hb, ht]
  · intro h
    rw [h] at h235
    norm_num at h235

/-- Witness for the amended C23: `Delta` against `Alpha` in the network of
`main`; the power of `Alpha` is 15. -/
theorem divisors_nonzero_witness :
    main_network.get_node 3 = some main_delta ∧
    main_network.get_node 0 = some main_alpha ∧
    main_alpha.power ≠ -1 ∧
    main_alpha.power + 1.0 ≠ 0 ∧
    (BetrayalStrategy.analyze_betrayal_opportunity main_network 3 0 0).total_cost + 0.1
      ≠ 0 :=
  ⟨by decide!, by decide!, by decide!,
    (divisors_nonzero main_network 3 0 0 main_delta main_alpha (by decide!)
      (by decide!)).2.1.2 (by decide!),
    (divisors_nonzero main_network 3 0 0 main_delta main_alpha (by decide!)
      (by decide!)).2.2.2.2⟩

/-! ## First visit wins -/

/-- A call of the recursion that passes its guard on an existing node leaves that
node marked and with its old power plus the amount of the call. -/
theorem InfluenceNetwork.propagate_power_recursive_first_visit (fuel : Nat)
    (net : InfluenceNetwork) (node_id : Int) (amount : ℚ) (visited : List Int)
    (depth : Nat) (nd : Node)
    (hg : ¬ (depth > 3 ∨ node_id ∈ visited ∨ amount < 0.01))
    (hn : net.get_node node_id = some nd) :
    node_id ∈ (InfluenceNetwork.propagate_power_recursive (fuel + 1) net node_id amount
        visited depth).2 ∧
    ((InfluenceNetwork.propagate_power_recursive (fuel + 1) net node_id amount visited
        depth).1.get_node node_id).map Node.power = some (nd.power + amount) := by
  rw [InfluenceNetwork.propagate_power_recursive_step fuel net node_id amount visited depth
    nd hg hn]
  exact foldl_edges_keeps
    (fun st : InfluenceNetwork × List Int => node_id ∈ st.2 ∧
      (st.1.get_node node_id).map Node.power = some (nd.power + amount))
    (fun st edge =>
      InfluenceNetwork.propagate_power_recursive fuel st.1 edge.target_id
        (amount * edge.calculate_influence_flow * 0.5) st.2 (depth + 1))
    (fun _ => True)
    (fun st e _ hst => by
      have h' := InfluenceNetwork.propagate_power_recursive_visited node_id fuel st.1
        e.target_id (amount * e.calculate_influence_flow * 0.5) st.2 (depth + 1) hst.1
      exact ⟨h'.1, h'.2.trans hst.2⟩)
    ((net.modify_node node_id (fun n => n.modify_power amount)).get_edges_from node_id)
    (fun _ _ => trivial)
    (net.modify_node node_id (fun n => n.modify_power amount), node_id :: visited)
    ⟨List.mem_cons_self _ _, by
      show Option.map Node.power
        ((net.modify_node node_id fun n => n.modify_power amount).get_node node_id) = _
      rw [InfluenceNetwork.get_node_modify_node, if_pos rfl, hn]
      rfl⟩

/-- C25. First visit wins, depth first, in edge-insertion order. A call of the
recursion that reaches an unvisited existing node adds its amount to that node
and marks it; every id already marked keeps its power through any later call;
the edges leaving a node are followed in their order in the edge list. With
`A → B`, `B → C`, `A → C` (all `SUBORDINATION`, weight 1) inserted in that order, a
propagation of 1.0 from `A` adds 1.0 to `A`, 0.6 to `B` and 0.36 to `C`, the amount
that arrives through `B`, not 0.6 and not 0.96; with `A → C` inserted first `C`
receives 0.6. -/
theorem propagate_influence_first_visit_wins :
    (∀ (fuel : Nat) (net : InfluenceNetwork) (node_id : Int) (amount : ℚ)
        (visited : List Int) (depth : Nat) (nd : Node),
      ¬ (depth > 3 ∨ node_id ∈ visited ∨ amount < 0.01) →
      net.get_node node_id = some nd →
      node_id ∈ (InfluenceNetwork.propagate_power_recursive (fuel + 1) net node_id amount
          visited depth).2 ∧
      ((InfluenceNetwork.propagate_power_recursive (fuel + 1) net node_id amount visited
          depth).1.get_node node_id).map Node.power = some (nd.power + amount)) ∧
    (∀ (fuel : Nat) (net : InfluenceNetwork) (node_id : Int) (amount : ℚ)
        (visited : List Int) (depth : Nat) (k : Int), k ∈ visited →
      k ∈ (InfluenceNetwork.propagate_power_recursive fuel net node_id amount visited
          depth).2 ∧
      ((InfluenceNetwork.propagate_power_recursive fuel net node_id amount visited
          depth).1.get_node k).map Node.power = (net.get_node k).map Node.power) ∧
    (∀ (net : InfluenceNetwork) (node_id : Int),
      net.get_edges_from node_id
        = net.edges.filter (fun e => decide (e.source_id = node_id))) ∧
    (triangle_network.edges.map (fun e => (e.source_id, e.target_id))
        = [(0, 1), (1, 2), (0, 2)] ∧
      triangle_network.nodes.map (fun kn => (kn.1, kn.2.power))
        = [(0, 10), (1, 10), (2, 10)] ∧
      (triangle_network.propagate_influence 0 1.0).nodes.map (fun kn => (kn.1, kn.2.power))
        = [(0, 10 + 1.0), (1, 10 + 0.6), (2, 10 + 0.36)]) ∧
    (triangle_network_direct_first.edges.map (fun e => (e.source_id, e.target_id))
        = [(0, 2), (0, 1), (1, 2)] ∧
      (triangle_network_direct_first.propagate_influence 0 1.0).nodes.map
          (fun kn => (kn.1, kn.2.power))
        = [(0, 10 + 1.0), (1, 10 + 0.6), (2, 10 + 0.6)]) := by
  refine ⟨?_, ?_, fun _ _ => rfl, ⟨by decide!, by decide!, by decide!⟩,
    ⟨by decide!, by decide!⟩⟩
  · intro fuel net node_id amount visited depth nd hg hn
    exact InfluenceNetwork.propagate_power_recursive_first_visit fuel net node_id amount
      visited depth nd hg hn
  · intro fuel net node_id amount visited depth k hk
    exact InfluenceNetwork.propagate_power_recursive_visited k fuel net node_id amount
      visited depth hk

/-! ## Invariants of the states reached through the public interface -/

theorem NodeMap.find_assign (m : NodeMap) (id : Int) (n : Node) (k : Int) :
    NodeMap.find (NodeMap.assign m id n) k = if k = id then some n else NodeMap.find m k := by
  induction m with
  | nil =>
    rw [NodeMap.assign, NodeMap.find_cons, NodeMap.find_nil]
    by_cases h : id = k
    · rw [if_pos h, if_pos h.symm]
    · rw [if_neg h, if_neg (fun e => h e.symm)]
  | cons kx rest ih =>
    obtain ⟨k0, x⟩ := kx
    rw [NodeMap.assign]
    by_cases h1 : id < k0
    · rw [if_pos h1, NodeMap.find_cons]
      by_cases h : id = k
      · rw [if_pos h, if_pos h.symm]
      · rw [if_neg h, if_neg (fun e => h e.symm)]
    · rw [if_neg h1]
      by_cases h2 : id = k0
      · rw [if_pos h2, NodeMap.find_cons, NodeMap.find_cons]
        by_cases h : k0 = k
        · rw [if_pos h, if_pos (h.symm.trans h2.symm)]
        · rw [if_neg h, if_neg h, if_neg (fun e => h (h2.symm.trans e.symm))]
      · rw [if_neg h2, NodeMap.find_cons, NodeMap.find_cons, ih]
        by_cases h : k0 = k
        · rw [if_pos h, if_pos h, if_neg (fun e => h2 (e.symm.trans h.symm))]
        · rw [if_neg h, if_neg h]

theorem NodeMap.mem_modify (m : NodeMap) (id : Int) (f : Node → Node) (kn : Int × Node)
    (h : kn ∈ NodeMap.modify m id f) :
    ∃ n : Node, (kn.1, n) ∈ m ∧ (kn.2 = n ∨ kn.2 = f n) := by
  unfold NodeMap.modify at h
  rw [List.mem_map] at h
  obtain ⟨kn0, hmem, heq⟩ := h
  by_cases hk : kn0.1 = id
  · rw [if_pos hk] at heq
    rw [← heq]
    exact ⟨kn0.2, hmem, Or.inr rfl⟩
  · rw [if_neg hk] at heq
    rw [← heq]
    exact ⟨kn0.2, hmem, Or.inl rfl⟩

theorem InfluenceNetwork.keys_below_next_modify_node (net : InfluenceNetwork) (id : Int)
    (f : Node → Node) (h : net.keys_below_next) : (net.modify_node id f).keys_below_next := by
  refine ⟨h.1, ?_⟩
  intro kn hkn
  obtain ⟨n, hmem, _⟩ := NodeMap.mem_modify net.nodes id f kn hkn
  exact h.2 (kn.1, n) hmem

theorem InfluenceNetwork.lists_nodup_modify_node (net : InfluenceNetwork) (id : Int)
    (f : Node → Node)
    (hf : ∀ n : Node, n.allies.Nodup ∧ n.subordinates.Nodup →
      (f n).allies.Nodup ∧ (f n).subordinates.Nodup)
    (h : net.lists_nodup) : (net.modify_node id f).lists_nodup := by
  intro kn hkn
  obtain ⟨n, hmem, hcase⟩ := NodeMap.mem_modify net.nodes id f kn hkn
  rcases hcase with hc | hc
  · rw [hc]; exact h (kn.1, n) hmem
  · rw [hc]; exact hf n (h (kn.1, n) hmem)

/-- Mutual ally membership only depends on the ally list found under each id. -/
theorem InfluenceNetwork.allies_symmetric_of_view (net net1 : InfluenceNetwork)
    (hview : ∀ k : Int, (net1.get_node k).map Node.allies = (net.get_node k).map Node.allies)
    (h : net.allies_symmetric) : net1.allies_symmetric := by
  intro a b na hna hb
  have ha := hview a
  rw [hna] at ha
  cases hna0 : net.get_node a with
  | none => rw [hna0] at ha; exact Option.noConfusion ha
  | some na0 =>
    rw [hna0] at ha
    have hal : na.allies = na0.allies := Option.some.inj ha
    obtain ⟨nb0, hnb0, hmem⟩ := h a b na0 hna0 (hal ▸ hb)
    have hbv := hview b
    rw [hnb0] at hbv
    cases hnb : net1.get_node b with
    | none => rw [hnb] at hbv; exact Option.noConfusion hbv
    | some nb =>
      rw [hnb] at hbv
      have hbl : nb.allies = nb0.allies := Option.some.inj hbv
      exact ⟨nb, rfl, hbl ▸ hmem⟩

/-- A write that leaves both relationship lists of a node alone keeps all the
invariants. -/
theorem InfluenceNetwork.well_formed_modify_node (net : InfluenceNetwork) (id : Int)
    (f : Node → Node)
    (hf : ∀ n : Node, (f n).allies = n.allies ∧ (f n).subordinates = n.subordinates)
    (h : net.well_formed) : (net.modify_node id f).well_formed := by
  refine ⟨NodeMap.ordered_modify net.nodes id f h.1,
    InfluenceNetwork.keys_below_next_modify_node net id f h.2.1,
    InfluenceNetwork.lists_nodup_modify_node net id f ?_ h.2.2.1,
    InfluenceNetwork.allies_symmetric_of_view net _ ?_ h.2.2.2⟩
  · intro n hn
    rw [(hf n).1, (hf n).2]
    exact hn
  · intro k
    exact InfluenceNetwork.get_node_modify_node_frame Node.allies net id f
      (fun n => (hf n).1) k

/-- The invariants do not depend on the edge list. -/
theorem InfluenceNetwork.well_formed_edges (net : InfluenceNetwork) (es : List Edge)
    (h : net.well_formed) : ({ net with edges := es } : InfluenceNetwork).well_formed := h

/-- Any property of the network kept by the writes of power, loyalty and traitor
flag and independent of the edge list is kept by `execute_betrayal`. -/
theorem BetrayalStrategy.execute_betrayal_keeps (Inv : InfluenceNetwork → Prop)
    (hmod : ∀ (s : InfluenceNetwork) (id : Int) (f : Node → Node),
      (∀ n : Node, (f n).allies = n.allies ∧ (f n).subordinates = n.subordinates) →
      Inv s → Inv (s.modify_node id f))
    (hedge : ∀ (s : InfluenceNetwork) (es : List Edge), Inv s →
      Inv ({ s with edges := es } : InfluenceNetwork))
    (net : InfluenceNetwork) (plan : BetrayalPlan) (h : Inv net) :
    Inv (BetrayalStrategy.execute_betrayal net plan) := by
  cases hb : net.get_node plan.betrayer_id with
  | none =>
    unfold BetrayalStrategy.execute_betrayal
    rw [BetrayalStrategy.execute_betrayal_before_propagate_none net plan (Or.inl hb)]
    exact h
  | some b =>
    cases ht : net.get_node plan.target_id with
    | none =>
      unfold BetrayalStrategy.execute_betrayal
      rw [BetrayalStrategy.execute_betrayal_before_propagate_none net plan (Or.inr ht)]
      exact h
    | some t =>
      unfold BetrayalStrategy.execute_betrayal
      rw [BetrayalStrategy.execute_betrayal_before_propagate_some net plan b t hb ht]
      simp only
      apply InfluenceNetwork.propagate_influence_keeps Inv
        (fun s id a hs => hmod s id _ (fun _ => ⟨rfl, rfl⟩) hs)
      rw [InfluenceNetwork.add_edge_conflict]
      apply hedge
      apply hedge
      apply BetrayalStrategy.penalize_allies_keeps Inv
        (fun s id hs => hmod s id _ (fun _ => ⟨rfl, rfl⟩) hs)
      refine hmod _ _ _ ?_ (hmod _ _ _ ?_ (hmod _ _ _ ?_ (hmod _ _ _ ?_ h)))
      all_goals
        intro n
        exact ⟨rfl, rfl⟩

theorem InfluenceNetwork.well_formed_ctor : InfluenceNetwork.ctor.well_formed := by
  refine ⟨List.Pairwise.nil, ⟨le_refl _, ?_⟩, ?_, ?_⟩
  · intro kn hkn; exact absurd hkn (List.not_mem_nil _)
  · intro kn hkn; exact absurd hkn (List.not_mem_nil _)
  · intro a b na hna
    exact Option.noConfusion hna

theorem InfluenceNetwork.get_node_add_node (net : InfluenceNetwork) (name : String)
    (initial_power : ℚ) (k : Int) :
    (net.add_node name initial_power).1.get_node k =
      if k = net.next_node_id then some (Node.ctor net.next_node_id name initial_power)
      else net.get_node k :=
  NodeMap.find_assign net.nodes _ _ k

theorem InfluenceNetwork.well_formed_add_node (net : InfluenceNetwork) (name : String)
    (initial_power : ℚ) (h : net.well_formed) :
    (net.add_node name initial_power).1.well_formed := by
  obtain ⟨hord, hkeys, hnd, hsym⟩ := h
  refine ⟨NodeMap.ordered_assign net.nodes _ _ hord, ⟨?_, ?_⟩, ?_, ?_⟩
  · show 0 ≤ net.next_node_id + 1
    have := hkeys.1
    omega
  · intro kn hkn
    show 0 ≤ kn.1 ∧ kn.1 < net.next_node_id + 1
    rcases NodeMap.mem_assign net.nodes _ _ kn hkn with hx | hx
    · rw [hx]
      have := hkeys.1
      exact ⟨this, by show net.next_node_id < net.next_node_id + 1; omega⟩
    · have := hkeys.2 kn hx
      exact ⟨this.1, by omega⟩
  · intro kn hkn
    rcases NodeMap.mem_assign net.nodes _ _ kn hkn with hx | hx
    · rw [hx]
      exact ⟨List.nodup_nil, List.nodup_nil⟩
    · exact hnd kn hx
  · intro a b na hna hb
    rw [InfluenceNetwork.get_node_add_node] at hna
    by_cases ha : a = net.next_node_id
    · rw [if_pos ha] at hna
      have : na = Node.ctor net.next_node_id name initial_power := (Option.some.inj hna).symm
      rw [this] at hb
      exact absurd hb (List.not_mem_nil _)
    · rw [if_neg ha] at hna
      obtain ⟨nb, hnb, hmem⟩ := hsym a b na hna hb
      have hbkey := (hkeys.2 (b, nb) (NodeMap.find_some_mem net.nodes b nb hnb)).2
      have hbne : b ≠ net.next_node_id := ne_of_lt hbkey
      refine ⟨nb, ?_, hmem⟩
      rw [InfluenceNetwork.get_node_add_node, if_neg hbne]
      exact hnb

theorem Node.mem_add_ally (n : Node) (x y : Int) :
    y ∈ (n.add_ally x).allies ↔ y ∈ n.allies ∨ y = x := by
  unfold Node.add_ally
  by_cases hx : x ∈ n.allies
  · rw [if_pos hx]
    constructor
    · intro h; exact Or.inl h
    · intro h
      rcases h with h | h
      · exact h
      · rw [h]; exact hx
  · rw [if_neg hx]
    show y ∈ n.allies ++ [x] ↔ _
    rw [List.mem_append, List.mem_singleton]

theorem InfluenceNetwork.ordered_modify_node (net : InfluenceNetwork) (id : Int)
    (f : Node → Node) (h : NodeMap.ordered net.nodes) :
    NodeMap.ordered (net.modify_node id f).nodes :=
  NodeMap.ordered_modify net.nodes id f h

/-- The node found under each id after an `ALLIANCE` edge between existing
endpoints. -/
theorem InfluenceNetwork.get_node_add_edge_alliance (net : InfluenceNetwork) (s t : Int)
    (w : ℚ) (sn tn : Node) (hs : net.get_node s = some sn) (ht : net.get_node t = some tn)
    (k : Int) :
    (net.add_edge s t EdgeType.ALLIANCE w).get_node k =
      (net.get_node k).map (fun n =>
        if k = t then (if k = s then n.add_ally t else n).add_ally s
        else if k = s then n.add_ally t else n) := by
  rw [InfluenceNetwork.add_edge_alliance net s t w sn tn hs ht]
  have base : ∀ x : Int,
      ({ net with edges := net.edges ++ [Edge.ctor s t EdgeType.ALLIANCE w] } :
        InfluenceNetwork).get_node x = net.get_node x := fun _ => rfl
  simp only [InfluenceNetwork.get_node_modify_node, base]
  clear hs ht base
  by_cases h1 : k = t <;> by_cases h2 : k = s <;> cases hk : net.get_node k <;>
    simp_all

theorem InfluenceNetwork.mem_allies_after_alliance (n : Node) (s t k y : Int) :
    y ∈ (if k = t then (if k = s then n.add_ally t else n).add_ally s
          else if k = s then n.add_ally t else n).allies ↔
      y ∈ n.allies ∨ (k = s ∧ y = t) ∨ (k = t ∧ y = s) := by
  by_cases h1 : k = t
  · by_cases h2 : k = s
    · rw [if_pos h1, if_pos h2, Node.mem_add_ally, Node.mem_add_ally]
      tauto
    · rw [if_pos h1, if_neg h2, Node.mem_add_ally]
      tauto
  · by_cases h2 : k = s
    · rw [if_neg h1, if_pos h2, Node.mem_add_ally]
      tauto
    · rw [if_neg h1, if_neg h2]
      tauto

theorem InfluenceNetwork.well_formed_add_edge (net : InfluenceNetwork) (s t : Int)
    (type : EdgeType) (w : ℚ) (h : net.well_formed) :
    (net.add_edge s t type w).well_formed := by
  cases hs : net.get_node s with
  | none =>
    rw [InfluenceNetwork.add_edge_missing net s t type w (Or.inl hs)]
    exact h
  | some sn =>
    cases ht : net.get_node t with
    | none =>
      rw [InfluenceNetwork.add_edge_missing net s t type w (Or.inr ht)]
      exact h
    | some tn =>
      cases type with
      | CONFLICT => rw [InfluenceNetwork.add_edge_conflict]; exact h
      | NEUTRAL => rw [InfluenceNetwork.add_edge_neutral]; exact h
      | SUBORDINATION =>
        rw [InfluenceNetwork.add_edge_subordination net s t w sn tn hs ht]
        have h1 : ({ net with edges := net.edges ++
            [Edge.ctor s t EdgeType.SUBORDINATION w] } : InfluenceNetwork).well_formed := h
        obtain ⟨hord, hkeys, hnd, hsym⟩ := h1
        refine ⟨InfluenceNetwork.ordered_modify_node _ _ _ hord,
          InfluenceNetwork.keys_below_next_modify_node _ _ _ hkeys,
          InfluenceNetwork.lists_nodup_modify_node _ _ _ ?_ hnd,
          InfluenceNetwork.allies_symmetric_of_view _ _ ?_ hsym⟩
        · intro n hn
          rw [(Node.add_subordinate_frame n t).2.2.2]
          exact ⟨hn.1, (Node.add_subordinate_subordinates n t hn.2).1⟩
        · intro k
          exact InfluenceNetwork.get_node_modify_node_frame Node.allies _ _ _
            (fun n => (Node.add_subordinate_frame n t).2.2.2) k
      | ALLIANCE =>
        obtain ⟨hord, hkeys, hnd, hsym⟩ := h
        have hally : ∀ (x : Int) (n : Node), n.allies.Nodup ∧ n.subordinates.Nodup →
            (n.add_ally x).allies.Nodup ∧ (n.add_ally x).subordinates.Nodup := by
          intro x n hn
          rw [(Node.add_ally_frame n x).2.2.2]
          exact ⟨(Node.add_ally_allies n x hn.1).1, hn.2⟩
        refine ⟨?_, ?_, ?_, ?_⟩
        · rw [InfluenceNetwork.add_edge_alliance net s t w sn tn hs ht]
          exact InfluenceNetwork.ordered_modify_node _ _ _
            (InfluenceNetwork.ordered_modify_node _ _ _ hord)
        · rw [InfluenceNetwork.add_edge_alliance net s t w sn tn hs ht]
          exact InfluenceNetwork.keys_below_next_modify_node _ _ _
            (InfluenceNetwork.keys_below_next_modify_node _ _ _ hkeys)
        · rw [InfluenceNetwork.add_edge_alliance net s t w sn tn hs ht]
          exact InfluenceNetwork.lists_nodup_modify_node _ _ _ (hally s)
            (InfluenceNetwork.lists_nodup_modify_node _ _ _ (hally t) hnd)
        · intro a b na2 hna2 hb
          rw [InfluenceNetwork.get_node_add_edge_alliance net s t w sn tn hs ht] at hna2
          cases hna0 : net.get_node a with
          | none => rw [hna0] at hna2; exact Option.noConfusion hna2
          | some na0 =>
            rw [hna0] at hna2
            have hna2' := Option.some.inj hna2
            rw [← hna2', InfluenceNetwork.mem_allies_after_alliance] at hb
            rcases hb with hb | ⟨ha, hbt⟩ | ⟨ha, hbs⟩
            · obtain ⟨nb0, hnb0, hmem⟩ := hsym a b na0 hna0 hb
              have hget := InfluenceNetwork.get_node_add_edge_alliance net s t w sn tn hs ht b
              rw [hnb0, Option.map_some'] at hget
              exact ⟨_, hget,
                (InfluenceNetwork.mem_allies_after_alliance nb0 s t b a).mpr (Or.inl hmem)⟩
            · have hget := InfluenceNetwork.get_node_add_edge_alliance net s t w sn tn hs ht b
              rw [hbt, ht, Option.map_some'] at hget
              rw [hbt]
              exact ⟨_, hget,
                (InfluenceNetwork.mem_allies_after_alliance tn s t t a).mpr
                  (Or.inr (Or.inr ⟨rfl, ha⟩))⟩
            · have hget := InfluenceNetwork.get_node_add_edge_alliance net s t w sn tn hs ht b
              rw [hbs, hs, Option.map_some'] at hget
              rw [hbs]
              exact ⟨_, hget,
                (InfluenceNetwork.mem_allies_after_alliance sn s t s a).mpr
                  (Or.inr (Or.inl ⟨rfl, ha⟩))⟩

theorem InfluenceNetwork.well_formed_call (net : InfluenceNetwork) (c : NetworkCall)
    (h : net.well_formed) : (net.call c).well_formed := by
  cases c with
  | add_node name initial_power => exact InfluenceNetwork.well_formed_add_node net _ _ h
  | add_edge source target type weight =>
    exact InfluenceNetwork.well_formed_add_edge net _ _ _ _ h
  | remove_edge source target => exact h
  | propagate_influence source_id amount =>
    exact InfluenceNetwork.propagate_influence_keeps InfluenceNetwork.well_formed
      (fun s id a hs => InfluenceNetwork.well_formed_modify_node s id _
        (fun _ => ⟨rfl, rfl⟩) hs) net source_id amount h
  | execute_betrayal plan =>
    exact BetrayalStrategy.execute_betrayal_keeps InfluenceNetwork.well_formed
      (fun s id f hf hs => InfluenceNetwork.well_formed_modify_node s id f hf hs)
      (fun s es hs => InfluenceNetwork.well_formed_edges s es hs) net plan h

/-- Every state reached from the empty network by calls of the public interface
satisfies the invariants. -/
theorem InfluenceNetwork.well_formed_after_calls (calls : List NetworkCall) :
    (InfluenceNetwork.after_calls calls).well_formed := by
  unfold InfluenceNetwork.after_calls
  have key : ∀ (l : List NetworkCall) (net : InfluenceNetwork), net.well_formed →
      (l.foldl InfluenceNetwork.call net).well_formed := by
    intro l
    induction l with
    | nil => intro net h; exact h
    | cons c rest ih =>
      intro net h
      rw [List.foldl_cons]
      exact ih _ (InfluenceNetwork.well_formed_call net c h)
  exact key calls _ InfluenceNetwork.well_formed_ctor

theorem InfluenceNetwork.next_node_id_add_edge (net : InfluenceNetwork) (s t : Int)
    (type : EdgeType) (w : ℚ) :
    (net.add_edge s t type w).next_node_id = net.next_node_id := by
  unfold InfluenceNetwork.add_edge
  simp only
  split
  · split <;> rfl
  · rfl

/-- Only `add_node` moves the id counter, by one. -/
theorem InfluenceNetwork.next_node_id_call (net : InfluenceNetwork) (c : NetworkCall) :
    (net.call c).next_node_id = net.next_node_id + (if c.is_add_node then 1 else 0) := by
  cases c with
  | add_node name initial_power => rfl
  | add_edge source target type weight =>
    show (net.add_edge source target type weight).next_node_id = net.next_node_id + 0
    rw [InfluenceNetwork.next_node_id_add_edge, add_zero]
  | remove_edge source target =>
    show net.next_node_id = net.next_node_id + 0
    rw [add_zero]
  | propagate_influence source_id amount =>
    show (net.propagate_influence source_id amount).next_node_id = net.next_node_id + 0
    rw [add_zero]
    exact InfluenceNetwork.propagate_influence_keeps
      (fun s => s.next_node_id = net.next_node_id) (fun _ _ _ h => h) net source_id amount rfl
  | execute_betrayal plan =>
    show (BetrayalStrategy.execute_betrayal net plan).next_node_id = net.next_node_id + 0
    rw [add_zero]
    exact BetrayalStrategy.execute_betrayal_keeps
      (fun s => s.next_node_id = net.next_node_id) (fun _ _ _ _ h => h) (fun _ _ h => h)
      net plan rfl

theorem InfluenceNetwork.next_node_id_foldl_call (l : List NetworkCall) :
    ∀ net : InfluenceNetwork,
      (l.foldl InfluenceNetwork.call net).next_node_id =
        net.next_node_id + (l.countP NetworkCall.is_add_node : Int) := by
  induction l with
  | nil => intro net; simp
  | cons c rest ih =>
    intro net
    rw [List.foldl_cons, ih, InfluenceNetwork.next_node_id_call, List.countP_cons]
    by_cases hc : c.is_add_node = true
    · simp only [hc, if_true]
      push_cast
      ring
    · simp only [hc, if_false]
      push_cast
      ring

/-- The id counter after a sequence of calls on the empty network is the number
of `add_node` calls in it. -/
theorem InfluenceNetwork.next_node_id_after_calls (calls : List NetworkCall) :
    (InfluenceNetwork.after_calls calls).next_node_id =
      (calls.countP NetworkCall.is_add_node : Int) := by
  unfold InfluenceNetwork.after_calls
  rw [InfluenceNetwork.next_node_id_foldl_call]
  show (0 : Int) + _ = _
  rw [zero_add]

/-- C21. After any sequence of `add_node`, `add_edge`, `remove_edge`,
`propagate_influence` and `execute_betrayal` calls on the empty network, the next
`add_node` returns the number of `add_node` calls made so far, so the k-th call
returns `k - 1` and a later call returns a larger id; the node found under the
new id has the given power, loyalty 1.0, radius `initial_power * 0.5`, no traitor
flag and empty lists; every node that existed and the edge list are unchanged. -/
theorem add_node_fresh_id (calls : List NetworkCall) (name : String) (initial_power : ℚ) :
    ((InfluenceNetwork.after_calls calls).add_node name initial_power).2 =
      (calls.countP NetworkCall.is_add_node : Int) ∧
    InfluenceNetwork.after_calls (calls ++ [NetworkCall.add_node name initial_power]) =
      ((InfluenceNetwork.after_calls calls).add_node name initial_power).1 ∧
    ((InfluenceNetwork.after_calls calls).add_node name initial_power).1.get_node
        (calls.countP NetworkCall.is_add_node : Int) =
      some (Node.ctor (calls.countP NetworkCall.is_add_node : Int) name initial_power) ∧
    ((Node.ctor (calls.countP NetworkCall.is_add_node : Int) name initial_power).power
        = initial_power ∧
      (Node.ctor (calls.countP NetworkCall.is_add_node : Int) name initial_power).loyalty
        = 1.0 ∧
      (Node.ctor (calls.countP NetworkCall.is_add_node : Int) name
        initial_power).influence_radius = initial_power * 0.5 ∧
      (Node.ctor (calls.countP NetworkCall.is_add_node : Int) name initial_power).is_traitor
        = false ∧
      (Node.ctor (calls.countP NetworkCall.is_add_node : Int) name initial_power).allies
        = [] ∧
      (Node.ctor (calls.countP NetworkCall.is_add_node : Int) name
        initial_power).subordinates = []) ∧
    (∀ (k : Int) (n : Node), (InfluenceNetwork.after_calls calls).get_node k = some n →
      ((InfluenceNetwork.after_calls calls).add_node name initial_power).1.get_node k
        = some n) ∧
    ((InfluenceNetwork.after_calls calls).add_node name initial_power).1.edges =
      (InfluenceNetwork.after_calls calls).edges ∧
    (∀ (more : List NetworkCall) (name2 : String) (power2 : ℚ),
      ((InfluenceNetwork.after_calls calls).add_node name initial_power).2 <
        ((InfluenceNetwork.after_calls
          (calls ++ NetworkCall.add_node name initial_power :: more)).add_node name2
          power2).2) := by
  have hnext := InfluenceNetwork.next_node_id_after_calls calls
  have hwf := InfluenceNetwork.well_formed_after_calls calls
  refine ⟨hnext, ?_, ?_, ⟨rfl, rfl, rfl, rfl, rfl, rfl⟩, ?_, rfl, ?_⟩
  · unfold InfluenceNetwork.after_calls
    rw [List.foldl_append]
    rfl
  · rw [InfluenceNetwork.get_node_add_node, ← hnext, if_pos rfl]
  · intro k n hk
    have hlt := (hwf.2.1.2 (k, n) (NodeMap.find_some_mem _ k n hk)).2
    rw [InfluenceNetwork.get_node_add_node, if_neg (ne_of_lt hlt)]
    exact hk
  · intro more name2 power2
    show (InfluenceNetwork.after_calls calls).next_node_id <
      (InfluenceNetwork.after_calls
        (calls ++ NetworkCall.add_node name initial_power :: more)).next_node_id
    rw [InfluenceNetwork.next_node_id_after_calls, InfluenceNetwork.next_node_id_after_calls,
      List.countP_append, List.countP_cons]
    have h1 : NetworkCall.is_add_node (NetworkCall.add_node name initial_power) = true := rfl
    simp only [h1, if_true]
    push_cast
    have h0 : (0 : Int) ≤ (List.countP NetworkCall.is_add_node more : Int) :=
      Int.natCast_nonneg _
    omega

/-- C24. In every state reached from the empty network by `add_node`, `add_edge`,
`remove_edge`, `propagate_influence` and `execute_betrayal` calls, whoever is in
the ally list of a node names an existing node that has this node in its own ally
list, and no ally or subordinate list holds an id twice. After the calls of
`main` followed by a propagation, an edge removal and a betrayal, `Delta` still
has the allies 1 and 5. -/
theorem reachable_allies_symmetric (calls : List NetworkCall) :
    (∀ (a b : Int) (na : Node), (InfluenceNetwork.after_calls calls).get_node a = some na →
      b ∈ na.allies →
      ∃ nb : Node, (InfluenceNetwork.after_calls calls).get_node b = some nb ∧
        a ∈ nb.allies) ∧
    (∀ (a : Int) (na : Node), (InfluenceNetwork.after_calls calls).get_node a = some na →
      na.allies.Nodup ∧ na.subordinates.Nodup) ∧
    ((InfluenceNetwork.after_calls main_calls).get_node 3).map Node.allies = some [1, 5] := by
  have hwf := InfluenceNetwork.well_formed_after_calls calls
  refine ⟨hwf.2.2.2, ?_, by decide!⟩
  intro a na hna
  exact hwf.2.2.1 (a, na) (NodeMap.find_some_mem _ a na hna)
